import Mathlib

/-!
Shallow embedding of `src/gerador_escala.py` (GeradorEscalaDiaconos).

Modelling conventions:
* Calendar dates are represented by their proleptic-Gregorian ordinal
  (`datetime.date.toordinal`): day 1 is January 1 of year 1, a Monday.
  `date(ano, 1, 1)` becomes `jan1 ano`, `date(ano, 12, 31)` becomes
  `dec31 ano`, `d + timedelta(days = k)` becomes `d + k` (or `d - k`),
  and `d.weekday()` becomes `weekday d` (0 = Monday .. 6 = Sunday).
* The process-wide random source (`random.seed` / `random.choice`) is
  modelled by an oracle stream of draw indices, `RandSrc := List Nat`,
  threaded explicitly.  `random.choice l` consumes the head `v` of the
  stream and returns `l[v % l.length]`; every sequence of concrete
  uniform draws corresponds to some oracle stream, and seeding with a
  fixed seed corresponds to fixing one stream.  Claims quantified over
  "every seed" are proved for every stream.
* Python exceptions are modelled explicitly: functions that can raise
  mid-way return their (possibly partially mutated) state together with
  an `Option EscalaError`; `some e` means the Python code raised `e`
  at that point with exactly that state left behind on the instance.
* Python parameter rebinding semantics are preserved: a function that
  reassigns its list parameter does not affect its caller's list.
-/

namespace GeradorEscala

/-- Embeds the dataclass `DiaconoEscala`: one assignment record with
volunteer name, role (`funcao`: "chave" or "oferta"), occurrence kind
(`dia`: "domingo", "quarta" or "sabado") and optional date. -/
structure DiaconoEscala where
  nome : String
  funcao : String
  dia : String
  data : Option Nat := none
deriving DecidableEq

/-- The two error conditions raised by the Python code (both as
`ValueError`): `configError` is the construction-time empty-roster error
("A lista de diáconos não pode estar vazia", the spec's
`ConfigurationError`); `emptyPoolError` is a uniform-random draw
attempted on an empty candidate list (the spec's `EmptyPoolError`). -/
inductive EscalaError where
  | configError : EscalaError
  | emptyPoolError : EscalaError
deriving DecidableEq

/-- Oracle stream of random draw indices (see module docstring). -/
abbrev RandSrc := List Nat

/-- Head of the oracle stream (index used by the next draw). -/
def rhead (r : RandSrc) : Nat := r.headD 0

/-- Stream after one draw. -/
def rtail (r : RandSrc) : RandSrc := r.tail

/-- Embeds `random.choice(l)`: uniform draw from a sequence, `none`
when the sequence is empty (Python raises there).  The oracle head `v`
selects element `v % l.length`, so every element is reachable. -/
def randChoice (l : List String) (r : RandSrc) : Option (String × RandSrc) :=
  match l with
  | [] => none
  | a :: as => some ((a :: as).getD (rhead r % (a :: as).length) a, rtail r)

/-- Embeds the mutable state of one `GeradorEscalaDiaconos` instance:
the roster `lista_diaconos`, the accumulated schedule `escala_gerada`,
the circular-rotation used-subset `_chaves_usadas`, and the weekly-link
map `_chave_semanal` (a Saturday-date-keyed association list; inserts
append, lookups take the first match, which agrees with a Python dict
here because each Saturday key is inserted at most once per run). -/
structure Gerador where
  lista_diaconos : List String
  escala_gerada : List DiaconoEscala
  chaves_usadas : List String
  chave_semanal : List (Nat × String)
deriving DecidableEq

/-- Embeds `__init__(lista_diaconos, seed)`: rejects an empty roster,
otherwise copies the roster and initialises empty state.  The `seed`
argument only seeds the process-wide random source, which in this
embedding is the explicitly passed oracle stream, so it carries no
state of its own here. -/
def initGerador (lista_diaconos : List String) (seed : Option Nat) :
    Except EscalaError Gerador :=
  if lista_diaconos = [] then .error .configError
  else .ok ⟨lista_diaconos, [], [], []⟩

/-- Embeds `_sortear_diacono`: checked uniform draw, raising the
empty-pool `ValueError` on an empty candidate list. -/
def sortear_diacono (diaconos_disponiveis : List String) (r : RandSrc) :
    Except EscalaError (String × RandSrc) :=
  match randChoice diaconos_disponiveis r with
  | none => .error .emptyPoolError
  | some p => .ok p

/-- Embeds `_remover_diacono`: list comprehension removing every
occurrence of `nome`. -/
def remover_diacono (lista : List String) (nome : String) : List String :=
  lista.filter (fun d => d ≠ nome)

/-- Embeds Python's `_is_leap` used by `datetime.date`. -/
def bissexto (ano : Nat) : Bool :=
  (ano % 4 == 0 && ano % 100 != 0) || ano % 400 == 0

/-- Days of the proleptic Gregorian calendar strictly before year
`ano` (Python's `_days_before_year`). -/
def diasAntesAno (ano : Nat) : Nat :=
  365 * (ano - 1) + (ano - 1) / 4 - (ano - 1) / 100 + (ano - 1) / 400

/-- Ordinal of `date(ano, 1, 1)`. -/
def jan1 (ano : Nat) : Nat := diasAntesAno ano + 1

/-- Number of days in year `ano`. -/
def diasNoAno (ano : Nat) : Nat := if bissexto ano then 366 else 365

/-- Ordinal of `date(ano, 12, 31)`. -/
def dec31 (ano : Nat) : Nat := jan1 ano + diasNoAno ano - 1

/-- Embeds `date.weekday()`: 0 = Monday .. 6 = Sunday.  Python computes
`(ordinal - 1) % 7`; `(d + 6) % 7` agrees on every ordinal `d ≥ 1`. -/
def weekday (d : Nat) : Nat := (d + 6) % 7

/-- Result shape of `_calcular_datas_ano`: the dict with the three
day-name keys, in insertion order domingo, quarta, sabado. -/
structure DatasPorDia where
  domingo : List Nat
  quarta : List Nat
  sabado : List Nat
deriving DecidableEq

/-- One iteration of the date-classification loop body in
`_calcular_datas_ano` (appends the date to the matching list; the
day-number constants 6, 2, 5 are `MAPA_DIAS_SEMANA`). -/
def classificarData (acc : DatasPorDia) (d : Nat) : DatasPorDia :=
  if weekday d = 6 then { acc with domingo := acc.domingo ++ [d] }
  else if weekday d = 2 then { acc with quarta := acc.quarta ++ [d] }
  else if weekday d = 5 then { acc with sabado := acc.sabado ++ [d] }
  else acc

/-- Embeds `_calcular_datas_ano`: iterates every date from
`date(ano, 1, 1)` to `date(ano, 12, 31)` inclusive (that is, the
`diasNoAno ano` consecutive ordinals starting at `jan1 ano`),
classifying each by weekday.  It reads no instance state. -/
def calcular_datas_ano (ano : Nat) : DatasPorDia :=
  (List.range' (jan1 ano) (diasNoAno ano)).foldl classificarData ⟨[], [], []⟩

/-- First step of `_obter_proximo_chave_circular`: the used-subset
after the size-reached clearing rule
(`if len(self._chaves_usadas) >= len(self.lista_diaconos)`). -/
def chaves_apos_reset (g : Gerador) : List String :=
  if g.chaves_usadas.length ≥ g.lista_diaconos.length then []
  else g.chaves_usadas

/-- Second step of `_obter_proximo_chave_circular`: the roster members
not in the (possibly cleared) used-subset. -/
def disponiveis_rotacao (g : Gerador) : List String :=
  g.lista_diaconos.filter (fun d => decide (d ∉ chaves_apos_reset g))

/-- Used-subset after the defensive fallback of
`_obter_proximo_chave_circular` (cleared again if no candidate was
left). -/
def chaves_final (g : Gerador) : List String :=
  if disponiveis_rotacao g = [] then [] else chaves_apos_reset g

/-- Candidate pool after the defensive fallback (the full roster if no
candidate was left). -/
def disponiveis_final (g : Gerador) : List String :=
  if disponiveis_rotacao g = [] then g.lista_diaconos
  else disponiveis_rotacao g

/-- Embeds `_obter_proximo_chave_circular`: clear the used-subset when
it has reached the roster size, take the roster members not yet used,
defensively fall back to the full roster if that is empty, draw one,
and append it to the used-subset (the local reassignments of
`self._chaves_usadas` and `diaconos_disponiveis` are the named helper
definitions above). -/
def obter_proximo_chave_circular (g : Gerador) (r : RandSrc) :
    Except EscalaError (String × Gerador × RandSrc) :=
  match randChoice (disponiveis_final g) r with
  | none => .error .emptyPoolError
  | some (escolhido, r') =>
      .ok (escolhido, { g with chaves_usadas := chaves_final g ++ [escolhido] }, r')

/-- Embeds `_encontrar_sabado_semana`: branches on the weekday of the
event date itself (1 day back from a Sunday, 4 days back from a
Wednesday, `none` otherwise).  Natural subtraction stands in for the
date arithmetic; every year date has ordinal ≥ 1. -/
def encontrar_sabado_semana (data_evento : Nat) : Option Nat :=
  if weekday data_evento = 6 then some (data_evento - 1)
  else if weekday data_evento = 2 then some (data_evento - 4)
  else none

/-- First-match lookup in the weekly-link association list (a Python
dict lookup; keys are inserted at most once per generation run). -/
def lookupSemanal : List (Nat × String) → Nat → Option String
  | [], _ => none
  | (k, v) :: rest, s => if k = s then some v else lookupSemanal rest s

/-- Embeds `_adicionar_escala_dia_anual`: reuse the weekly-linked
Saturday volunteer when the same-week Saturday is in the link map,
otherwise fall back to a fresh rotation pick; append exactly one
"chave" assignment for the date. -/
def adicionar_escala_dia_anual (dia : String) (data_evento : Nat)
    (g : Gerador) (r : RandSrc) : Gerador × RandSrc × Option EscalaError :=
  let viaLink : Option String :=
    match encontrar_sabado_semana data_evento with
    | some s => lookupSemanal g.chave_semanal s
    | none => none
  match viaLink with
  | some diacono_chave =>
      ({ g with escala_gerada := g.escala_gerada ++
          [⟨diacono_chave, "chave", dia, some data_evento⟩] }, r, none)
  | none =>
      match obter_proximo_chave_circular g r with
      | .error e => (g, r, some e)
      | .ok (diacono_chave, g', r') =>
          ({ g' with escala_gerada := g'.escala_gerada ++
              [⟨diacono_chave, "chave", dia, some data_evento⟩] }, r', none)

/-- Embeds `_adicionar_escala_sabado_anual`: rotation pick for the
"chave" role, record it in the weekly-link map under the Saturday's
date, then two independent unchecked draws from the entire roster for
the two "oferta" roles. -/
def adicionar_escala_sabado_anual (data_evento : Nat)
    (g : Gerador) (r : RandSrc) : Gerador × RandSrc × Option EscalaError :=
  match obter_proximo_chave_circular g r with
  | .error e => (g, r, some e)
  | .ok (diacono_chave, g1, r1) =>
    let g2 := { g1 with
      chave_semanal := g1.chave_semanal ++ [(data_evento, diacono_chave)],
      escala_gerada := g1.escala_gerada ++
        [⟨diacono_chave, "chave", "sabado", some data_evento⟩] }
    match sortear_diacono g2.lista_diaconos r1 with
    | .error e => (g2, r1, some e)
    | .ok (oferta1, r2) =>
      let g3 := { g2 with escala_gerada := g2.escala_gerada ++
          [⟨oferta1, "oferta", "sabado", some data_evento⟩] }
      match sortear_diacono g3.lista_diaconos r2 with
      | .error e => (g3, r2, some e)
      | .ok (oferta2, r3) =>
        ({ g3 with escala_gerada := g3.escala_gerada ++
            [⟨oferta2, "oferta", "sabado", some data_evento⟩] }, r3, none)

/-- The loop body of `gerar_escala_anual`'s chronological processing:
dispatch one (date, day-kind) pair to the Saturday or to the
Sunday/Wednesday handler. -/
def passo_data (p : Nat × String) (g : Gerador) (r : RandSrc) :
    Gerador × RandSrc × Option EscalaError :=
  if p.2 = "sabado" then adicionar_escala_sabado_anual p.1 g r
  else adicionar_escala_dia_anual p.2 p.1 g r

/-- The chronological processing loop of `gerar_escala_anual`: run the
loop body on each (date, day-kind) pair in order; a raised exception
aborts the loop, leaving the state the handler left behind. -/
def processar_datas : List (Nat × String) → Gerador → RandSrc →
    Gerador × RandSrc × Option EscalaError
  | [], g, r => (g, r, none)
  | p :: rest, g, r =>
    match (passo_data p g r).2.2 with
    | some e => ((passo_data p g r).1, (passo_data p g r).2.1, some e)
    | none => processar_datas rest (passo_data p g r).1 (passo_data p g r).2.1

/-- The unsorted (date, day-kind) list built by `gerar_escala_anual`
from `_calcular_datas_ano`'s result, in the dict iteration order
domingo, quarta, sabado. -/
def base_datas (ano : Nat) : List (Nat × String) :=
  (calcular_datas_ano ano).domingo.map (fun d => (d, "domingo"))
    ++ (calcular_datas_ano ano).quarta.map (fun d => (d, "quarta"))
    ++ (calcular_datas_ano ano).sabado.map (fun d => (d, "sabado"))

/-- Stable insertion of a pair into a date-sorted list: the new pair
goes after every element whose date key is ≤ its own. -/
def inserir_data (p : Nat × String) : List (Nat × String) →
    List (Nat × String)
  | [] => [p]
  | q :: rest => if q.1 ≤ p.1 then q :: inserir_data p rest
    else p :: q :: rest

/-- Stable insertion sort by the date key.  This embeds
`todas_datas.sort(key=lambda x: x[0])`: Python's sort is a stable sort
by the key, and the output of a stable sort by a key is uniquely
determined, so any stable sorting algorithm is a faithful model (here
the date keys are pairwise distinct anyway). -/
def ordenar_datas : List (Nat × String) → List (Nat × String)
  | [] => []
  | p :: rest => inserir_data p (ordenar_datas rest)

/-- The date list built and sorted by `gerar_escala_anual`
(`todas_datas.sort(key=lambda x: x[0])`, a stable sort by date). -/
def todas_datas_ano (ano : Nat) : List (Nat × String) :=
  ordenar_datas (base_datas ano)

/-- Embeds `gerar_escala_anual`: reset the schedule, the rotation
state and the weekly-link map, then process every relevant date of the
year in chronological order.  The Python method returns
`self.escala_gerada`, which is the `escala_gerada` field of the
returned state when no error is flagged. -/
def gerar_escala_anual (ano : Nat) (g : Gerador) (r : RandSrc) :
    Gerador × RandSrc × Option EscalaError :=
  let g0 := { g with
    escala_gerada := ([] : List DiaconoEscala),
    chaves_usadas := ([] : List String),
    chave_semanal := ([] : List (Nat × String)) }
  processar_datas (todas_datas_ano ano) g0 r

/-- Embeds the legacy `_adicionar_escala_dia`.  Python semantics that
matter here: when `evitar_repeticao` is set, the function REBINDS its
`diaconos_disponiveis` parameter to a fresh filtered list before the
second draw, and the trailing in-place `.remove(diacono_oferta)`
mutates only that fresh local list; the caller's list object is never
mutated, so neither removal is visible outside this call.  The local
`.remove` therefore has no observable effect and produces no binding
used below. -/
def adicionar_escala_dia (dia : String) (diaconos_disponiveis : List String)
    (evitar_repeticao : Bool) (g : Gerador) (r : RandSrc) :
    Gerador × RandSrc × Option EscalaError :=
  match sortear_diacono diaconos_disponiveis r with
  | .error e => (g, r, some e)
  | .ok (diacono_chave, r1) =>
    let g1 := { g with escala_gerada := g.escala_gerada ++
        [⟨diacono_chave, "chave", dia, none⟩] }
    let disp1 := if evitar_repeticao
      then remover_diacono diaconos_disponiveis diacono_chave
      else diaconos_disponiveis
    match sortear_diacono disp1 r1 with
    | .error e => (g1, r1, some e)
    | .ok (diacono_oferta, r2) =>
      ({ g1 with escala_gerada := g1.escala_gerada ++
          [⟨diacono_oferta, "oferta", dia, none⟩] }, r2, none)

/-- Embeds the legacy `_adicionar_escala_sabado` with the
`for _ in range(2)` loop unrolled: one "chave" draw and two "oferta"
draws, the local pool shrinking after each draw when
`evitar_repeticao` is set (again only locally: the caller's list is
rebound, never mutated). -/
def adicionar_escala_sabado (diaconos_disponiveis : List String)
    (evitar_repeticao : Bool) (g : Gerador) (r : RandSrc) :
    Gerador × RandSrc × Option EscalaError :=
  match sortear_diacono diaconos_disponiveis r with
  | .error e => (g, r, some e)
  | .ok (diacono_chave, r1) =>
    let g1 := { g with escala_gerada := g.escala_gerada ++
        [⟨diacono_chave, "chave", "sabado", none⟩] }
    let disp1 := if evitar_repeticao
      then remover_diacono diaconos_disponiveis diacono_chave
      else diaconos_disponiveis
    match sortear_diacono disp1 r1 with
    | .error e => (g1, r1, some e)
    | .ok (oferta1, r2) =>
      let g2 := { g1 with escala_gerada := g1.escala_gerada ++
          [⟨oferta1, "oferta", "sabado", none⟩] }
      let disp2 := if evitar_repeticao then remover_diacono disp1 oferta1 else disp1
      match sortear_diacono disp2 r2 with
      | .error e => (g2, r2, some e)
      | .ok (oferta2, r3) =>
        ({ g2 with escala_gerada := g2.escala_gerada ++
            [⟨oferta2, "oferta", "sabado", none⟩] }, r3, none)

/-- Embeds the legacy `gerar_escala_semanal`: reset the schedule and
rotation state, copy the roster into a local pool, and run the Sunday,
Wednesday and Saturday handlers in order.  Because each handler only
rebinds (never mutates) its pool parameter, all three receive the same
full roster copy. -/
def gerar_escala_semanal (evitar_repeticao : Bool) (g : Gerador) (r : RandSrc) :
    Gerador × RandSrc × Option EscalaError :=
  let g0 := { g with
    escala_gerada := ([] : List DiaconoEscala),
    chaves_usadas := ([] : List String) }
  let diaconos_disponiveis := g0.lista_diaconos
  let res1 := adicionar_escala_dia "domingo" diaconos_disponiveis evitar_repeticao g0 r
  match res1.2.2 with
  | some e => (res1.1, res1.2.1, some e)
  | none =>
    let res2 := adicionar_escala_dia "quarta" diaconos_disponiveis evitar_repeticao
      res1.1 res1.2.1
    match res2.2.2 with
    | some e => (res2.1, res2.2.1, some e)
    | none => adicionar_escala_sabado diaconos_disponiveis evitar_repeticao
        res2.1 res2.2.1

/-- Result shape of `obter_escala_por_dia`: the dict keyed by
`DIAS_ESCALA`. -/
structure EscalaPorDia where
  domingo : List DiaconoEscala
  quarta : List DiaconoEscala
  sabado : List DiaconoEscala
deriving DecidableEq

/-- The grouping loop of `obter_escala_por_dia`: append each record to
the bucket of its `dia`; a record whose `dia` is none of the three
fixed keys raises `KeyError` in Python, modelled as `none`. -/
def agrupar_por_dia : List DiaconoEscala → EscalaPorDia → Option EscalaPorDia
  | [], acc => some acc
  | e :: rest, acc =>
    if e.dia = "domingo" then
      agrupar_por_dia rest { acc with domingo := acc.domingo ++ [e] }
    else if e.dia = "quarta" then
      agrupar_por_dia rest { acc with quarta := acc.quarta ++ [e] }
    else if e.dia = "sabado" then
      agrupar_por_dia rest { acc with sabado := acc.sabado ++ [e] }
    else none

/-- Embeds `obter_escala_por_dia`. -/
def obter_escala_por_dia (g : Gerador) : Option EscalaPorDia :=
  agrupar_por_dia g.escala_gerada ⟨[], [], []⟩

/-- Result shape of `obter_escala_por_funcao`: the dict keyed by
"chave" and "oferta". -/
structure EscalaPorFuncao where
  chave : List DiaconoEscala
  oferta : List DiaconoEscala
deriving DecidableEq

/-- The grouping loop of `obter_escala_por_funcao` (`KeyError` on an
unknown `funcao`, modelled as `none`). -/
def agrupar_por_funcao : List DiaconoEscala → EscalaPorFuncao → Option EscalaPorFuncao
  | [], acc => some acc
  | e :: rest, acc =>
    if e.funcao = "chave" then
      agrupar_por_funcao rest { acc with chave := acc.chave ++ [e] }
    else if e.funcao = "oferta" then
      agrupar_por_funcao rest { acc with oferta := acc.oferta ++ [e] }
    else none

/-- Embeds `obter_escala_por_funcao`. -/
def obter_escala_por_funcao (g : Gerador) : Option EscalaPorFuncao :=
  agrupar_por_funcao g.escala_gerada ⟨[], []⟩

/-- Test driver for the rotation claims: perform `n` consecutive calls
to `obter_proximo_chave_circular` on one generator, collecting the
picked names in order. -/
def proximos_chaves : Nat → Gerador → RandSrc →
    Except EscalaError (List String × Gerador × RandSrc)
  | 0, g, r => .ok ([], g, r)
  | Nat.succ k, g, r =>
    match obter_proximo_chave_circular g r with
    | .error e => .error e
    | .ok (x, g', r') =>
      match proximos_chaves k g' r' with
      | .error e => .error e
      | .ok (xs, g'', r'') => .ok (x :: xs, g'', r'')

/-- Projection of an assignment to its deterministic fields (role,
occurrence kind, date); the volunteer name is the only random field. -/
def projEscala (e : DiaconoEscala) : String × String × Option Nat :=
  (e.funcao, e.dia, e.data)

/-- The projected block of assignments that the annual processing loop
appends for one (date, day-kind) pair: three assignments on a
Saturday (1 "chave" + 2 "oferta"), one "chave" assignment otherwise. -/
def formatoData (p : Nat × String) : List (String × String × Option Nat) :=
  if p.2 = "sabado" then
    [("chave", "sabado", some p.1), ("oferta", "sabado", some p.1),
     ("oferta", "sabado", some p.1)]
  else [("chave", p.2, some p.1)]

/-! ## Basic lemmas about draws and the weekly-link map -/

/-- A uniform draw from a non-empty pool succeeds and yields a pool
member. -/
lemma randChoice_pos (l : List String) (r : RandSrc) (h : l ≠ []) :
    ∃ x r', randChoice l r = some (x, r') ∧ x ∈ l := by
  match l with
  | [] => exact absurd rfl h
  | a :: as =>
    refine ⟨_, _, rfl, ?_⟩
    have hlt : rhead r % (a :: as).length < (a :: as).length :=
      Nat.mod_lt _ (by simp)
    rw [List.getD_eq_getElem _ _ hlt]
    exact List.getElem_mem hlt

/-- `_sortear_diacono` on a non-empty pool succeeds with a pool
member. -/
lemma sortear_pos (l : List String) (r : RandSrc) (h : l ≠ []) :
    ∃ x r', sortear_diacono l r = .ok (x, r') ∧ x ∈ l := by
  obtain ⟨x, r', hx, hm⟩ := randChoice_pos l r h
  exact ⟨x, r', by simp [sortear_diacono, hx], hm⟩

/-- `_sortear_diacono` can only raise the empty-pool error. -/
lemma sortear_error (l : List String) (r : RandSrc) (e : EscalaError)
    (h : sortear_diacono l r = .error e) : e = .emptyPoolError := by
  unfold sortear_diacono at h
  cases hr : randChoice l r with
  | none => rw [hr] at h; cases h; rfl
  | some p => rw [hr] at h; cases h

/-- A successful weekly-link lookup is preserved by later inserts
(first match wins). -/
lemma lookupSemanal_append_some (m : List (Nat × String)) (p : Nat × String)
    (s : Nat) (v : String) (h : lookupSemanal m s = some v) :
    lookupSemanal (m ++ [p]) s = some v := by
  induction m with
  | nil => simp [lookupSemanal] at h
  | cons q m ih =>
    by_cases hk : q.1 = s
    · simpa [lookupSemanal, hk] using by simpa [lookupSemanal, hk] using h
    · rw [List.cons_append]
      simp only [lookupSemanal, hk, if_false] at h ⊢
      exact ih h

/-- Lookup misses when no key of the map equals the query. -/
lemma lookupSemanal_eq_none (m : List (Nat × String)) (s : Nat)
    (h : ∀ k v, (k, v) ∈ m → k ≠ s) : lookupSemanal m s = none := by
  induction m with
  | nil => rfl
  | cons q m ih =>
    have hq : q.1 ≠ s := h q.1 q.2 (by simp)
    simp only [lookupSemanal, hq, if_false]
    exact ih fun k v hm => h k v (List.mem_cons_of_mem _ hm)

/-- Inserting a fresh key makes it found with its value. -/
lemma lookupSemanal_append_self (m : List (Nat × String)) (s : Nat) (v : String)
    (h : lookupSemanal m s = none) :
    lookupSemanal (m ++ [(s, v)]) s = some v := by
  induction m with
  | nil => simp [lookupSemanal]
  | cons q m ih =>
    by_cases hk : q.1 = s
    · simp [lookupSemanal, hk] at h
    · rw [List.cons_append]
      simp only [lookupSemanal, hk, if_false] at h ⊢
      exact ih h

/-- Case analysis of a lookup through a single append. -/
lemma lookupSemanal_append_elim (m : List (Nat × String)) (p : Nat × String)
    (s : Nat) (v : String) (h : lookupSemanal (m ++ [p]) s = some v) :
    lookupSemanal m s = some v ∨ (lookupSemanal m s = none ∧ p.1 = s ∧ p.2 = v) := by
  induction m with
  | nil =>
    refine .inr ⟨rfl, ?_⟩
    by_cases hk : p.1 = s
    · simp [lookupSemanal, hk] at h
      exact ⟨hk, h⟩
    · simp [lookupSemanal, hk] at h
  | cons q m ih =>
    by_cases hk : q.1 = s
    · rw [List.cons_append] at h
      simp only [lookupSemanal, hk, if_true] at h ⊢
      exact .inl h
    · rw [List.cons_append] at h
      simp only [lookupSemanal, hk, if_false] at h ⊢
      exact ih h

/-! ## The circular rotation pick -/

/-- With a non-empty roster, the rotation pick always succeeds, only
modifies the used-subset, and returns a roster member (claim C7's
content, usable with ANY prior rotation state, duplicates included). -/
lemma disponiveis_final_ne_nil (g : Gerador) (h : g.lista_diaconos ≠ []) :
    disponiveis_final g ≠ [] := by
  unfold disponiveis_final
  by_cases hd : disponiveis_rotacao g = [] <;> simp [hd, h]

lemma disponiveis_final_subset (g : Gerador) (x : String)
    (hx : x ∈ disponiveis_final g) : x ∈ g.lista_diaconos := by
  unfold disponiveis_final at hx
  by_cases hd : disponiveis_rotacao g = []
  · rw [if_pos hd] at hx; exact hx
  · rw [if_neg hd] at hx
    exact (List.mem_filter.mp hx).1

lemma obter_proximo_spec (g : Gerador) (r : RandSrc)
    (h : g.lista_diaconos ≠ []) :
    ∃ x c r', obter_proximo_chave_circular g r =
      .ok (x, { g with chaves_usadas := c }, r') ∧ x ∈ g.lista_diaconos := by
  obtain ⟨x, r', hx, hm⟩ :=
    randChoice_pos (disponiveis_final g) r (disponiveis_final_ne_nil g h)
  refine ⟨x, chaves_final g ++ [x], r', ?_, disponiveis_final_subset g x hm⟩
  unfold obter_proximo_chave_circular
  rw [hx]

/-! ## Claims C7, C8, C6 -/

/-- C7: for every non-empty roster (duplicates allowed) and every
prior rotation state, the annual-mode rotation pick
`_obter_proximo_chave_circular` never raises `EmptyPoolError`: the
clearing rule and the defensive fallback guarantee at least one
candidate, and the returned name is a roster member. -/
theorem c7_rotation_never_empty (g : Gerador) (r : RandSrc)
    (h : g.lista_diaconos ≠ []) :
    ∃ x g' r', obter_proximo_chave_circular g r = .ok (x, g', r') ∧
      x ∈ g.lista_diaconos := by
  obtain ⟨x, c, r', hx, hm⟩ := obter_proximo_spec g r h
  exact ⟨x, _, r', hx, hm⟩

/-- Witness for C7 at a concrete input exercising the defensive
fallback: a duplicate-name roster whose used-subset already blocks
every candidate without triggering the size-reached clearing. -/
theorem c7_rotation_never_empty_witness :
    ∃ x g' r', obter_proximo_chave_circular ⟨["A", "A"], [], ["A"], []⟩ [] =
      .ok (x, g', r') ∧ x ∈ (["A", "A"] : List String) :=
  c7_rotation_never_empty ⟨["A", "A"], [], ["A"], []⟩ [] (by decide)

/-- C8: constructing a generator with an empty roster fails with the
configuration error (so no generator value, and hence no schedule, can
ever be produced from that call), while construction with any
non-empty roster succeeds, with a fresh empty schedule. -/
theorem c8_empty_roster_construction (seed : Option Nat) :
    initGerador [] seed = .error .configError ∧
    ∀ lista : List String, lista ≠ [] →
      initGerador lista seed = .ok ⟨lista, [], [], []⟩ := by
  refine ⟨rfl, ?_⟩
  intro lista h
  simp [initGerador, h]

/-- Witness for C8 at concrete inputs. -/
theorem c8_empty_roster_construction_witness :
    initGerador [] none = .error .configError ∧
    initGerador ["A"] none = .ok ⟨["A"], [], [], []⟩ :=
  ⟨(c8_empty_roster_construction none).1,
    (c8_empty_roster_construction none).2 ["A"] (by decide)⟩

/-- C6: two generators constructed from the same roster and seed
produce identical annual schedules for the same year when driven by
the same oracle stream (seeding the process-wide random source with a
fixed seed fixes the stream, so same roster + same seed + same year
gives a byte-identical run). -/
theorem c6_determinism (lista : List String) (seed : Option Nat)
    (r : RandSrc) (ano : Nat) (g1 g2 : Gerador)
    (h1 : initGerador lista seed = .ok g1)
    (h2 : initGerador lista seed = .ok g2) :
    gerar_escala_anual ano g1 r = gerar_escala_anual ano g2 r := by
  rw [h1] at h2
  injection h2 with h
  rw [h]

/-- Witness for C6 at a concrete roster, seed and year. -/
theorem c6_determinism_witness :
    gerar_escala_anual 2026 ⟨["A", "B"], [], [], []⟩ [] =
      gerar_escala_anual 2026 ⟨["A", "B"], [], [], []⟩ [] :=
  c6_determinism ["A", "B"] (some 42) [] 2026 _ _ (by simp [initGerador])
    (by simp [initGerador])

/-! ## Claim C4: rotation fairness -/

/-- Refined rotation-pick step on a duplicate-free roster whose
used-subset is not yet full: no clearing, no fallback, the pick is a
not-yet-used roster member appended to the used-subset. -/
lemma obter_proximo_nodup_step (g : Gerador) (r : RandSrc)
    (hN : g.lista_diaconos.Nodup)
    (hlt : g.chaves_usadas.length < g.lista_diaconos.length)
    (hsub : ∀ a ∈ g.chaves_usadas, a ∈ g.lista_diaconos)
    (hcN : g.chaves_usadas.Nodup) :
    ∃ x r', obter_proximo_chave_circular g r =
      .ok (x, { g with chaves_usadas := g.chaves_usadas ++ [x] }, r') ∧
      x ∈ g.lista_diaconos ∧ x ∉ g.chaves_usadas := by
  have hreset : chaves_apos_reset g = g.chaves_usadas := by
    unfold chaves_apos_reset
    exact if_neg (by omega)
  have hd : disponiveis_rotacao g ≠ [] := by
    intro hnil
    unfold disponiveis_rotacao at hnil
    rw [hreset] at hnil
    have hall : ∀ a ∈ g.lista_diaconos, a ∈ g.chaves_usadas := by
      intro a ha
      have := (List.filter_eq_nil_iff.mp hnil) a ha
      simpa using this
    have := (List.subperm_of_subset hN hall).length_le
    omega
  have hfin : disponiveis_final g = disponiveis_rotacao g := if_neg hd
  have hcf : chaves_final g = g.chaves_usadas := by
    unfold chaves_final
    rw [if_neg hd, hreset]
  obtain ⟨x, r', hx, hm⟩ :=
    randChoice_pos (disponiveis_final g) r (disponiveis_final_ne_nil g
      (by intro h0; rw [h0] at hlt; simp at hlt))
  rw [hfin] at hm
  unfold disponiveis_rotacao at hm
  rw [hreset] at hm
  have hm' := List.mem_filter.mp hm
  refine ⟨x, r', ?_, hm'.1, by simpa using hm'.2⟩
  unfold obter_proximo_chave_circular
  rw [hx, hcf]

/-- Iterated rotation picks on a duplicate-free roster, starting from
any used-subset that still has `k` free slots: all picks succeed, the
picks are distinct, unused before, and are appended in order. -/
lemma proximos_chaves_inv (k : Nat) : ∀ (g : Gerador) (r : RandSrc),
    g.lista_diaconos.Nodup → g.chaves_usadas.Nodup →
    (∀ a ∈ g.chaves_usadas, a ∈ g.lista_diaconos) →
    g.chaves_usadas.length + k ≤ g.lista_diaconos.length →
    ∃ xs g' r', proximos_chaves k g r = .ok (xs, g', r') ∧
      xs.length = k ∧ (g.chaves_usadas ++ xs).Nodup ∧
      (∀ a ∈ xs, a ∈ g.lista_diaconos) ∧
      g'.chaves_usadas = g.chaves_usadas ++ xs ∧
      g'.lista_diaconos = g.lista_diaconos := by
  induction k with
  | zero =>
    intro g r hN hcN hsub hle
    exact ⟨[], g, r, rfl, rfl, by simpa using hcN, by simp, by simp, rfl⟩
  | succ k ih =>
    intro g r hN hcN hsub hle
    obtain ⟨x, r', hx, hxl, hxc⟩ :=
      obter_proximo_nodup_step g r hN (by omega) hsub hcN
    have h1N : (g.chaves_usadas ++ [x]).Nodup := by
      refine List.Nodup.append hcN (List.nodup_singleton x) ?_
      intro a ha hax
      rw [List.mem_singleton] at hax
      exact hxc (hax ▸ ha)
    have h1sub : ∀ a ∈ g.chaves_usadas ++ [x], a ∈ g.lista_diaconos := by
      intro a ha
      rcases List.mem_append.mp ha with h | h
      · exact hsub a h
      · rw [List.mem_singleton] at h
        exact h ▸ hxl
    obtain ⟨xs, g', r'', hps, hlen, hnd, hmem, hchaves, hlista⟩ :=
      ih { g with chaves_usadas := g.chaves_usadas ++ [x] } r' hN h1N h1sub
        (by simp; omega)
    refine ⟨x :: xs, g', r'', ?_, by simp [hlen], ?_, ?_, ?_, hlista⟩
    · simp only [proximos_chaves, hx, hps]
    · simpa [List.append_assoc] using hnd
    · intro a ha
      rcases List.mem_cons.mp ha with h | h
      · exact h ▸ hxl
      · exact hmem a h
    · rw [hchaves]
      simp

/-- The rotation pick ignores a full used-subset: it behaves as if the
used-subset had been cleared (the clearing rule fires first). -/
lemma obter_proximo_reset (g : Gerador) (r : RandSrc)
    (h : g.chaves_usadas.length ≥ g.lista_diaconos.length) :
    obter_proximo_chave_circular g r =
      obter_proximo_chave_circular { g with chaves_usadas := [] } r := by
  obtain ⟨lista, esc, chaves, sem⟩ := g
  have h1 : chaves_apos_reset ⟨lista, esc, chaves, sem⟩ =
      chaves_apos_reset ⟨lista, esc, [], sem⟩ := by
    unfold chaves_apos_reset
    rw [if_pos h]
    split <;> rfl
  have h2 : disponiveis_rotacao ⟨lista, esc, chaves, sem⟩ =
      disponiveis_rotacao ⟨lista, esc, [], sem⟩ := by
    unfold disponiveis_rotacao
    rw [h1]
  have h3 : chaves_final ⟨lista, esc, chaves, sem⟩ =
      chaves_final ⟨lista, esc, [], sem⟩ := by
    unfold chaves_final
    rw [h1, h2]
  have h4 : disponiveis_final ⟨lista, esc, chaves, sem⟩ =
      disponiveis_final ⟨lista, esc, [], sem⟩ := by
    unfold disponiveis_final
    rw [h2]
  unfold obter_proximo_chave_circular
  rw [h4, h3]

/-- One full pass of rotation picks starting from an empty used-subset
visits each roster member exactly once. -/
lemma proximos_chaves_pass (g : Gerador) (r : RandSrc)
    (hN : g.lista_diaconos.Nodup) (hne : g.lista_diaconos ≠ [])
    (hempty : g.chaves_usadas = []) :
    ∃ xs g' r',
      proximos_chaves g.lista_diaconos.length g r = .ok (xs, g', r') ∧
      (∀ a ∈ g.lista_diaconos, xs.count a = 1) ∧
      (∀ a ∈ xs, a ∈ g.lista_diaconos) := by
  obtain ⟨xs, g', r', hps, hlen, hnd, hmem, _, _⟩ :=
    proximos_chaves_inv g.lista_diaconos.length g r hN
      (by rw [hempty]; exact List.nodup_nil)
      (by rw [hempty]; intro a ha; cases ha)
      (by rw [hempty]; simp)
  rw [hempty] at hnd
  simp only [List.nil_append] at hnd
  refine ⟨xs, g', r', hps, ?_, hmem⟩
  have hsubF : xs.toFinset ⊆ g.lista_diaconos.toFinset := by
    intro a ha
    exact List.mem_toFinset.mpr (hmem a (List.mem_toFinset.mp ha))
  have hcard : g.lista_diaconos.toFinset.card ≤ xs.toFinset.card := by
    rw [List.toFinset_card_of_nodup hN, List.toFinset_card_of_nodup hnd, hlen]
  have heq := Finset.eq_of_subset_of_card_le hsubF hcard
  intro a ha
  have haxs : a ∈ xs := by
    have : a ∈ xs.toFinset := heq ▸ List.mem_toFinset.mpr ha
    exact List.mem_toFinset.mp this
  exact List.count_eq_one_of_mem hnd haxs

/-- C4 (amended): on a duplicate-free non-empty roster, any
pass-aligned run of consecutive rotation picks — one starting with the
used-subset empty or just filled (the states at which a rotation pass
begins) — of length equal to the roster size contains every roster
member exactly once. -/
theorem c4_pass_aligned_fairness (g : Gerador) (r : RandSrc)
    (hN : g.lista_diaconos.Nodup) (hne : g.lista_diaconos ≠ [])
    (hst : g.chaves_usadas = [] ∨
      g.chaves_usadas.length = g.lista_diaconos.length) :
    ∃ xs g' r',
      proximos_chaves g.lista_diaconos.length g r = .ok (xs, g', r') ∧
      (∀ a ∈ g.lista_diaconos, xs.count a = 1) ∧
      (∀ a ∈ xs, a ∈ g.lista_diaconos) := by
  rcases hst with hempty | hfull
  · exact proximos_chaves_pass g r hN hne hempty
  · have hlen1 : ∃ m, g.lista_diaconos.length = m + 1 := by
      have := List.length_pos.mpr hne
      exact ⟨g.lista_diaconos.length - 1, by omega⟩
    obtain ⟨m, hm⟩ := hlen1
    have hred : proximos_chaves g.lista_diaconos.length g r =
        proximos_chaves g.lista_diaconos.length
          { g with chaves_usadas := [] } r := by
      rw [hm]
      simp only [proximos_chaves]
      rw [obter_proximo_reset g r (by omega)]
    rw [hred]
    exact proximos_chaves_pass { g with chaves_usadas := [] } r hN hne rfl

/-- Witness for C4 (amended) at a concrete roster and stream. -/
theorem c4_pass_aligned_fairness_witness :
    ∃ xs g' r',
      proximos_chaves (["A", "B"] : List String).length
        ⟨["A", "B"], [], [], []⟩ [1, 0] = .ok (xs, g', r') ∧
      (∀ a ∈ (["A", "B"] : List String), xs.count a = 1) ∧
      (∀ a ∈ xs, a ∈ (["A", "B"] : List String)) :=
  c4_pass_aligned_fairness ⟨["A", "B"], [], [], []⟩ [1, 0] (by decide)
    (by decide) (Or.inl rfl)

/-- C4 counterexample: the claim as stated (every window of
roster-size many consecutive picks, pass-aligned or not) fails.  On
roster ["A", "B"] with oracle stream [0, 0, 1], three consecutive
picks give ["A", "B", "B"]; the window consisting of the 2nd and 3rd
picks is ["B", "B"], in which roster member "A" appears 0 times, not
exactly once. -/
theorem c4_arbitrary_window_counterexample :
    (match proximos_chaves 3 ⟨["A", "B"], [], [], []⟩ [0, 0, 1] with
      | .ok p => some p.1
      | .error _ => none) = some ["A", "B", "B"] ∧
    List.count "A" (List.take 2 (List.drop 1 ["A", "B", "B"])) = 0 ∧
    "A" ∈ (["A", "B"] : List String) := by decide

/-! ## Legacy weekly mode: structure lemmas -/

/-- Full case analysis of the legacy Sunday/Wednesday handler: either
it succeeds, appending exactly one "chave" and one "oferta" record (no
date) and changing nothing else, or it fails with the empty-pool
error. -/
lemma adicionar_escala_dia_cases (dia : String) (disp : List String)
    (ev : Bool) (g : Gerador) (r : RandSrc) :
    (∃ n1 n2 r', adicionar_escala_dia dia disp ev g r =
      ({ g with escala_gerada := g.escala_gerada ++
        [⟨n1, "chave", dia, none⟩, ⟨n2, "oferta", dia, none⟩] }, r', none)) ∨
    (∃ g' r', adicionar_escala_dia dia disp ev g r =
      (g', r', some .emptyPoolError)) := by
  cases hs1 : sortear_diacono disp r with
  | error e1 =>
    have he := sortear_error disp r e1 hs1
    subst he
    right
    exact ⟨g, r, by simp only [adicionar_escala_dia, hs1]⟩
  | ok p1 =>
    obtain ⟨chave, r1⟩ := p1
    cases hs2 : sortear_diacono
        (if ev then remover_diacono disp chave else disp) r1 with
    | error e2 =>
      have he := sortear_error _ r1 e2 hs2
      subst he
      right
      exact ⟨{ g with escala_gerada := g.escala_gerada ++
        [⟨chave, "chave", dia, none⟩] }, r1,
        by simp only [adicionar_escala_dia, hs1, hs2]⟩
    | ok p2 =>
      obtain ⟨oferta, r2⟩ := p2
      left
      refine ⟨chave, oferta, r2, ?_⟩
      simp only [adicionar_escala_dia, hs1, hs2]
      simp

/-- Full case analysis of the legacy Saturday handler: either it
succeeds, appending exactly one "chave" and two "oferta" records (no
date) and changing nothing else, or it fails with the empty-pool
error. -/
lemma adicionar_escala_sabado_cases (disp : List String) (ev : Bool)
    (g : Gerador) (r : RandSrc) :
    (∃ n1 n2 n3 r', adicionar_escala_sabado disp ev g r =
      ({ g with escala_gerada := g.escala_gerada ++
        [⟨n1, "chave", "sabado", none⟩, ⟨n2, "oferta", "sabado", none⟩,
         ⟨n3, "oferta", "sabado", none⟩] }, r', none)) ∨
    (∃ g' r', adicionar_escala_sabado disp ev g r =
      (g', r', some .emptyPoolError)) := by
  cases hs1 : sortear_diacono disp r with
  | error e1 =>
    have he := sortear_error disp r e1 hs1
    subst he
    right
    exact ⟨g, r, by simp only [adicionar_escala_sabado, hs1]⟩
  | ok p1 =>
    obtain ⟨chave, r1⟩ := p1
    cases hs2 : sortear_diacono
        (if ev then remover_diacono disp chave else disp) r1 with
    | error e2 =>
      have he := sortear_error _ r1 e2 hs2
      subst he
      right
      exact ⟨{ g with escala_gerada := g.escala_gerada ++
        [⟨chave, "chave", "sabado", none⟩] }, r1,
        by simp only [adicionar_escala_sabado, hs1, hs2]⟩
    | ok p2 =>
      obtain ⟨oferta1, r2⟩ := p2
      cases hs3 : sortear_diacono
          (if ev then remover_diacono
            (if ev then remover_diacono disp chave else disp) oferta1
          else if ev then remover_diacono disp chave else disp) r2 with
      | error e3 =>
        have he := sortear_error _ r2 e3 hs3
        subst he
        right
        exact ⟨{ g with escala_gerada := g.escala_gerada ++
          [⟨chave, "chave", "sabado", none⟩] ++
          [⟨oferta1, "oferta", "sabado", none⟩] }, r2,
          by simp only [adicionar_escala_sabado, hs1, hs2, hs3]⟩
      | ok p3 =>
        obtain ⟨oferta2, r3⟩ := p3
        left
        refine ⟨chave, oferta1, oferta2, r3, ?_⟩
        simp only [adicionar_escala_sabado, hs1, hs2, hs3]
        simp

/-- The legacy weekly generation can only raise the empty-pool error,
and on success its schedule is exactly seven records: "chave"+"oferta"
for Sunday, "chave"+"oferta" for Wednesday, "chave"+2×"oferta" for
Saturday, all without a date. -/
lemma gerar_escala_semanal_spec (ev : Bool) (g : Gerador) (r : RandSrc) :
    (∀ e, (gerar_escala_semanal ev g r).2.2 = some e →
      e = .emptyPoolError) ∧
    ((gerar_escala_semanal ev g r).2.2 = none →
      ∃ n1 n2 n3 n4 n5 n6 n7,
        (gerar_escala_semanal ev g r).1.escala_gerada =
          [⟨n1, "chave", "domingo", none⟩, ⟨n2, "oferta", "domingo", none⟩,
           ⟨n3, "chave", "quarta", none⟩, ⟨n4, "oferta", "quarta", none⟩,
           ⟨n5, "chave", "sabado", none⟩, ⟨n6, "oferta", "sabado", none⟩,
           ⟨n7, "oferta", "sabado", none⟩]) := by
  rcases adicionar_escala_dia_cases "domingo" g.lista_diaconos ev
      { g with escala_gerada := [], chaves_usadas := [] } r with
    ⟨n1, n2, r1, h1⟩ | ⟨g1, r1, h1⟩
  · rcases adicionar_escala_dia_cases "quarta" g.lista_diaconos ev
        { g with
          escala_gerada :=
            [⟨n1, "chave", "domingo", none⟩, ⟨n2, "oferta", "domingo", none⟩],
          chaves_usadas := [] } r1 with
      ⟨n3, n4, r2, h2⟩ | ⟨g2, r2, h2⟩
    · rcases adicionar_escala_sabado_cases g.lista_diaconos ev
          { g with
            escala_gerada :=
              [⟨n1, "chave", "domingo", none⟩, ⟨n2, "oferta", "domingo", none⟩,
               ⟨n3, "chave", "quarta", none⟩, ⟨n4, "oferta", "quarta", none⟩],
            chaves_usadas := [] } r2 with
        ⟨n5, n6, n7, r3, h3⟩ | ⟨g3, r3, h3⟩
      · constructor
        · intro e he
          simp only [gerar_escala_semanal, List.nil_append, List.cons_append,
            h1, h2, h3] at he
          exact Option.noConfusion he
        · intro hn
          refine ⟨n1, n2, n3, n4, n5, n6, n7, ?_⟩
          simp only [gerar_escala_semanal, List.nil_append, List.cons_append,
            h1, h2, h3]
      · constructor
        · intro e he
          simp only [gerar_escala_semanal, List.nil_append, List.cons_append,
            h1, h2, h3] at he
          exact (Option.some.inj he).symm
        · intro hn
          simp only [gerar_escala_semanal, List.nil_append, List.cons_append,
            h1, h2, h3] at hn
          exact Option.noConfusion hn
    · constructor
      · intro e he
        simp only [gerar_escala_semanal, List.nil_append, List.cons_append,
          h1, h2] at he
        exact (Option.some.inj he).symm
      · intro hn
        simp only [gerar_escala_semanal, List.nil_append, List.cons_append,
          h1, h2] at hn
        exact Option.noConfusion hn
  · constructor
    · intro e he
      simp only [gerar_escala_semanal, h1] at he
      exact (Option.some.inj he).symm
    · intro hn
      simp only [gerar_escala_semanal, h1] at hn
      exact Option.noConfusion hn

/-! ## Claims C5 and C1 (legacy weekly mode) -/

/-- C5 (amended): for every roster, stream and flag, the legacy
`gerar_escala_semanal` either succeeds with the complete 7-assignment
week (2 Sunday + 2 Wednesday + 3 Saturday records, in order), or
raises `EmptyPoolError` — no other error is possible.  (The original
claim's "no partial schedule observable on the instance" part is
refuted separately: on failure the records appended before the failing
draw remain in `escala_gerada`.) -/
theorem c5_complete_or_empty_pool (ev : Bool) (g : Gerador) (r : RandSrc) :
    (∀ e, (gerar_escala_semanal ev g r).2.2 = some e →
      e = .emptyPoolError) ∧
    ((gerar_escala_semanal ev g r).2.2 = none →
      ∃ n1 n2 n3 n4 n5 n6 n7,
        (gerar_escala_semanal ev g r).1.escala_gerada =
          [⟨n1, "chave", "domingo", none⟩, ⟨n2, "oferta", "domingo", none⟩,
           ⟨n3, "chave", "quarta", none⟩, ⟨n4, "oferta", "quarta", none⟩,
           ⟨n5, "chave", "sabado", none⟩, ⟨n6, "oferta", "sabado", none⟩,
           ⟨n7, "oferta", "sabado", none⟩]) :=
  gerar_escala_semanal_spec ev g r

/-- Witness for C5 (amended) at a concrete successful run: roster
["A"], avoidRepeat off. -/
theorem c5_complete_or_empty_pool_witness :
    ∃ n1 n2 n3 n4 n5 n6 n7,
      (gerar_escala_semanal false ⟨["A"], [], [], []⟩ []).1.escala_gerada =
        [⟨n1, "chave", "domingo", none⟩, ⟨n2, "oferta", "domingo", none⟩,
         ⟨n3, "chave", "quarta", none⟩, ⟨n4, "oferta", "quarta", none⟩,
         ⟨n5, "chave", "sabado", none⟩, ⟨n6, "oferta", "sabado", none⟩,
         ⟨n7, "oferta", "sabado", none⟩] :=
  (c5_complete_or_empty_pool false ⟨["A"], [], [], []⟩ []).2 (by decide)

/-- C5 counterexample to the original claim's "leaving no partial
schedule observable" clause: with roster ["A"] and avoidRepeat on, the
run fails with the empty-pool error, yet one Sunday "chave" record is
left behind in the instance's accumulated schedule. -/
theorem c5_partial_state_counterexample :
    (gerar_escala_semanal true ⟨["A"], [], [], []⟩ []).2.2 =
      some .emptyPoolError ∧
    (gerar_escala_semanal true ⟨["A"], [], [], []⟩ []).1.escala_gerada =
      [⟨"A", "chave", "domingo", none⟩] := by decide

/-- C1 (code bug evidence): with `evitar_repeticao = True`, a roster
of 5 distinct names and the oracle stream that always draws the first
candidate, the legacy weekly generation succeeds with names
["A","B","A","B","A","B","C"] — the same volunteers repeat across the
7 assignments.  Cause: `_adicionar_escala_dia` rebinds its pool
parameter instead of mutating the caller's list, so Sunday's removals
never reach Wednesday's or Saturday's draws, contradicting the
function's own docstring ("evita que o mesmo diácono seja sorteado
mais de uma vez na mesma semana") and the repository's (disabled) test
`test_evitar_repeticao_ativa`. -/
theorem c1_repeat_despite_avoidRepeat :
    (gerar_escala_semanal true ⟨["A", "B", "C", "D", "E"], [], [], []⟩
      [0, 0, 0, 0, 0, 0, 0]).2.2 = none ∧
    ((gerar_escala_semanal true ⟨["A", "B", "C", "D", "E"], [], [], []⟩
      [0, 0, 0, 0, 0, 0, 0]).1.escala_gerada.map (fun e => e.nome)) =
      ["A", "B", "A", "B", "A", "B", "C"] ∧
    ¬ (["A", "B", "A", "B", "A", "B", "C"] : List String).Nodup := by decide

/-! ## Calendar enumeration (claim C9) -/

lemma classificarData_eq (acc : DatasPorDia) (d : Nat) :
    classificarData acc d =
      ⟨acc.domingo ++ (if weekday d = 6 then [d] else []),
       acc.quarta ++ (if weekday d = 2 then [d] else []),
       acc.sabado ++ (if weekday d = 5 then [d] else [])⟩ := by
  unfold classificarData
  by_cases h6 : weekday d = 6
  · simp [h6]
  · by_cases h2 : weekday d = 2
    · simp [h6, h2]
    · by_cases h5 : weekday d = 5
      · simp [h6, h2, h5]
      · simp [h6, h2, h5]

lemma foldl_classificar (l : List Nat) : ∀ acc : DatasPorDia,
    l.foldl classificarData acc =
      ⟨acc.domingo ++ l.filter (fun d => decide (weekday d = 6)),
       acc.quarta ++ l.filter (fun d => decide (weekday d = 2)),
       acc.sabado ++ l.filter (fun d => decide (weekday d = 5))⟩ := by
  induction l with
  | nil => intro acc; simp
  | cons d l ih =>
    intro acc
    rw [List.foldl_cons, ih (classificarData acc d), classificarData_eq]
    by_cases h6 : weekday d = 6
    · simp [h6, List.filter_cons, (by omega : ¬ (6 : Nat) = 2),
        (by omega : ¬ (6 : Nat) = 5)]
    · by_cases h2 : weekday d = 2
      · simp [h6, h2, List.filter_cons]
      · by_cases h5 : weekday d = 5
        · simp [h6, h2, h5, List.filter_cons]
        · simp [h6, h2, h5, List.filter_cons]

/-- `_calcular_datas_ano` computes exactly the three weekday filters of
the year's date range. -/
lemma calcular_datas_ano_eq (ano : Nat) :
    calcular_datas_ano ano =
      ⟨(List.range' (jan1 ano) (diasNoAno ano)).filter
          (fun d => decide (weekday d = 6)),
       (List.range' (jan1 ano) (diasNoAno ano)).filter
          (fun d => decide (weekday d = 2)),
       (List.range' (jan1 ano) (diasNoAno ano)).filter
          (fun d => decide (weekday d = 5))⟩ := by
  unfold calcular_datas_ano
  rw [foldl_classificar]
  simp

lemma diasNoAno_pos (ano : Nat) : 1 ≤ diasNoAno ano := by
  unfold diasNoAno
  split <;> omega

lemma jan1_pos (ano : Nat) : 1 ≤ jan1 ano := by
  unfold jan1
  omega

lemma mem_range_ano (ano d : Nat) :
    d ∈ List.range' (jan1 ano) (diasNoAno ano) ↔
      jan1 ano ≤ d ∧ d ≤ dec31 ano := by
  rw [List.mem_range'_1]
  have h1 := diasNoAno_pos ano
  have h2 := jan1_pos ano
  unfold dec31
  omega

/-- C9: `_calcular_datas_ano` returns, for each of the three keys, the
strictly increasing list of exactly those dates of the year (January 1
to December 31 inclusive) whose weekday matches the key — Sunday (6),
Wednesday (2), Saturday (5) — and no other date; it reads and writes
no generator state (in this embedding it is a pure function of the
year by construction, mirroring that the Python method only reads the
class constant `MAPA_DIAS_SEMANA`). -/
theorem c9_calcular_datas_ano (ano : Nat) :
    ((calcular_datas_ano ano).domingo.Pairwise (· < ·) ∧
      ∀ d, d ∈ (calcular_datas_ano ano).domingo ↔
        (jan1 ano ≤ d ∧ d ≤ dec31 ano ∧ weekday d = 6)) ∧
    ((calcular_datas_ano ano).quarta.Pairwise (· < ·) ∧
      ∀ d, d ∈ (calcular_datas_ano ano).quarta ↔
        (jan1 ano ≤ d ∧ d ≤ dec31 ano ∧ weekday d = 2)) ∧
    ((calcular_datas_ano ano).sabado.Pairwise (· < ·) ∧
      ∀ d, d ∈ (calcular_datas_ano ano).sabado ↔
        (jan1 ano ≤ d ∧ d ≤ dec31 ano ∧ weekday d = 5)) := by
  rw [calcular_datas_ano_eq]
  have hpw := List.pairwise_lt_range' (jan1 ano) (diasNoAno ano) 1
  refine ⟨⟨hpw.filter _, ?_⟩, ⟨hpw.filter _, ?_⟩, ⟨hpw.filter _, ?_⟩⟩ <;>
    · intro d
      rw [List.mem_filter, mem_range_ano]
      simp
      tauto

/-- Witness for C9 at year 2026 and the date of January 4, 2026, a
Sunday (ordinal 739620). -/
theorem c9_calcular_datas_ano_witness :
    jan1 2026 ≤ 739620 ∧ 739620 ≤ dec31 2026 ∧ weekday 739620 = 6 ∧
    739620 ∈ (calcular_datas_ano 2026).domingo :=
  ⟨by decide, by decide, by decide,
    (((c9_calcular_datas_ano 2026).1.2) 739620).mpr
      ⟨by decide, by decide, by decide⟩⟩

/-! ## The merged, sorted annual date list -/

lemma mem_base_datas (ano : Nat) (p : Nat × String) :
    p ∈ base_datas ano ↔
      (jan1 ano ≤ p.1 ∧ p.1 ≤ dec31 ano ∧
        ((p.2 = "domingo" ∧ weekday p.1 = 6) ∨
         (p.2 = "quarta" ∧ weekday p.1 = 2) ∨
         (p.2 = "sabado" ∧ weekday p.1 = 5))) := by
  obtain ⟨d, dia⟩ := p
  unfold base_datas
  rw [calcular_datas_ano_eq]
  simp only [List.mem_append, List.mem_map, List.mem_filter, mem_range_ano,
    decide_eq_true_eq, Prod.mk.injEq]
  constructor
  · rintro ((⟨a, ⟨⟨h1, h2⟩, h3⟩, rfl, rfl⟩ | ⟨a, ⟨⟨h1, h2⟩, h3⟩, rfl, rfl⟩) |
      ⟨a, ⟨⟨h1, h2⟩, h3⟩, rfl, rfl⟩)
    · exact ⟨h1, h2, .inl ⟨rfl, h3⟩⟩
    · exact ⟨h1, h2, .inr (.inl ⟨rfl, h3⟩)⟩
    · exact ⟨h1, h2, .inr (.inr ⟨rfl, h3⟩)⟩
  · rintro ⟨h1, h2, (⟨rfl, h3⟩ | ⟨rfl, h3⟩ | ⟨rfl, h3⟩)⟩
    · exact .inl (.inl ⟨d, ⟨⟨h1, h2⟩, h3⟩, rfl, rfl⟩)
    · exact .inl (.inr ⟨d, ⟨⟨h1, h2⟩, h3⟩, rfl, rfl⟩)
    · exact .inr ⟨d, ⟨⟨h1, h2⟩, h3⟩, rfl, rfl⟩

lemma base_datas_fst_nodup (ano : Nat) :
    ((base_datas ano).map Prod.fst).Nodup := by
  unfold base_datas
  rw [calcular_datas_ano_eq]
  simp only [List.map_append, List.map_map]
  have hnd : (List.range' (jan1 ano) (diasNoAno ano)).Nodup :=
    List.nodup_range' _ _
  have hd6 := hnd.filter (fun d => decide (weekday d = 6))
  have hd2 := hnd.filter (fun d => decide (weekday d = 2))
  have hd5 := hnd.filter (fun d => decide (weekday d = 5))
  have hmap : ∀ (s : String) (l : List Nat),
      l.map (Prod.fst ∘ fun d => (d, s)) = l := fun s l => List.map_id _
  rw [hmap, hmap, hmap]
  refine List.Nodup.append (List.Nodup.append hd6 hd2 ?_) hd5 ?_
  · intro a ha hb
    have h6 := (List.mem_filter.mp ha).2
    have h2 := (List.mem_filter.mp hb).2
    simp at h6 h2
    omega
  · intro a ha hb
    have h5 := (List.mem_filter.mp hb).2
    rcases List.mem_append.mp ha with ha | ha
    · have h6 := (List.mem_filter.mp ha).2
      simp at h6 h5
      omega
    · have h2 := (List.mem_filter.mp ha).2
      simp at h2 h5
      omega

lemma inserir_data_perm (p : Nat × String) (l : List (Nat × String)) :
    (inserir_data p l).Perm (p :: l) := by
  induction l with
  | nil => exact List.Perm.refl _
  | cons q rest ih =>
    unfold inserir_data
    by_cases h : q.1 ≤ p.1
    · rw [if_pos h]
      exact (ih.cons q).trans (List.Perm.swap p q rest)
    · rw [if_neg h]

lemma ordenar_datas_perm (l : List (Nat × String)) :
    (ordenar_datas l).Perm l := by
  induction l with
  | nil => exact List.Perm.refl _
  | cons p rest ih =>
    unfold ordenar_datas
    exact (inserir_data_perm p (ordenar_datas rest)).trans (ih.cons p)

lemma inserir_data_pairwise (p : Nat × String) (l : List (Nat × String))
    (h : l.Pairwise (fun a b => a.1 ≤ b.1)) :
    (inserir_data p l).Pairwise (fun a b => a.1 ≤ b.1) := by
  induction l with
  | nil => simp [inserir_data]
  | cons q rest ih =>
    have hq := List.pairwise_cons.mp h
    unfold inserir_data
    by_cases hle : q.1 ≤ p.1
    · rw [if_pos hle]
      refine List.pairwise_cons.mpr ⟨?_, ih hq.2⟩
      intro x hx
      rcases List.mem_cons.mp ((inserir_data_perm p rest).mem_iff.mp hx)
        with hx | hx
      · cases hx
        exact hle
      · exact hq.1 x hx
    · rw [if_neg hle]
      refine List.pairwise_cons.mpr ⟨?_, h⟩
      intro x hx
      rcases List.mem_cons.mp hx with hx | hx
      · cases hx
        omega
      · have := hq.1 x hx
        omega

lemma ordenar_datas_pairwise (l : List (Nat × String)) :
    (ordenar_datas l).Pairwise (fun a b => a.1 ≤ b.1) := by
  induction l with
  | nil => simp [ordenar_datas]
  | cons p rest ih =>
    unfold ordenar_datas
    exact inserir_data_pairwise p (ordenar_datas rest) ih

lemma todas_perm (ano : Nat) :
    (todas_datas_ano ano).Perm (base_datas ano) :=
  ordenar_datas_perm _

lemma mem_todas (ano : Nat) (p : Nat × String) :
    p ∈ todas_datas_ano ano ↔ p ∈ base_datas ano :=
  (todas_perm ano).mem_iff

lemma todas_pairwise (ano : Nat) :
    (todas_datas_ano ano).Pairwise (fun p q => p.1 < q.1) := by
  have hle : (todas_datas_ano ano).Pairwise
      (fun p q : Nat × String => p.1 ≤ q.1) :=
    ordenar_datas_pairwise (base_datas ano)
  have hnd : ((todas_datas_ano ano).map Prod.fst).Nodup := by
    have hperm := (todas_perm ano).map Prod.fst
    exact hperm.nodup_iff.mpr (base_datas_fst_nodup ano)
  have hne : (todas_datas_ano ano).Pairwise (fun p q => p.1 ≠ q.1) :=
    List.pairwise_map.mp hnd
  refine (hle.and hne).imp ?_
  intro a b hab
  have h1 : a.1 ≤ b.1 := hab.1
  have h2 : a.1 ≠ b.1 := hab.2
  omega

lemma todas_kinds (ano : Nat) (p : Nat × String)
    (hp : p ∈ todas_datas_ano ano) :
    jan1 ano ≤ p.1 ∧ p.1 ≤ dec31 ano ∧
      ((p.2 = "domingo" ∧ weekday p.1 = 6) ∨
       (p.2 = "quarta" ∧ weekday p.1 = 2) ∨
       (p.2 = "sabado" ∧ weekday p.1 = 5)) :=
  (mem_base_datas ano p).mp ((mem_todas ano p).mp hp)

/-! ## Annual handlers: success shapes -/

/-- Success shape of the annual Saturday handler on a non-empty
roster: one rotation-picked "chave" recorded in the link map and the
schedule, then two unconstrained "oferta" draws from the full roster. -/
lemma adicionar_escala_sabado_anual_spec (d : Nat) (g : Gerador)
    (r : RandSrc) (h : g.lista_diaconos ≠ []) :
    ∃ chave o1 o2 c r', adicionar_escala_sabado_anual d g r =
      ({ g with
        chaves_usadas := c,
        chave_semanal := g.chave_semanal ++ [(d, chave)],
        escala_gerada := g.escala_gerada ++
          [⟨chave, "chave", "sabado", some d⟩,
           ⟨o1, "oferta", "sabado", some d⟩,
           ⟨o2, "oferta", "sabado", some d⟩] }, r', none) ∧
      chave ∈ g.lista_diaconos ∧ o1 ∈ g.lista_diaconos ∧
      o2 ∈ g.lista_diaconos := by
  obtain ⟨chave, c, r1, hc, hcm⟩ := obter_proximo_spec g r h
  obtain ⟨o1, r2, ho1, ho1m⟩ := sortear_pos g.lista_diaconos r1 h
  obtain ⟨o2, r3, ho2, ho2m⟩ := sortear_pos g.lista_diaconos r2 h
  refine ⟨chave, o1, o2, c, r3, ?_, hcm, ho1m, ho2m⟩
  simp only [adicionar_escala_sabado_anual, hc, ho1, ho2]
  simp

/-- Success shape of the annual Sunday/Wednesday handler on a
non-empty roster: exactly one "chave" record is appended, named either
by the weekly link (state otherwise untouched) or by a rotation-pick
fallback when the link misses. -/
lemma adicionar_escala_dia_anual_spec (dia : String) (d : Nat)
    (g : Gerador) (r : RandSrc) (h : g.lista_diaconos ≠ []) :
    ∃ nome c r', adicionar_escala_dia_anual dia d g r =
      ({ g with
        chaves_usadas := c,
        escala_gerada := g.escala_gerada ++
          [⟨nome, "chave", dia, some d⟩] }, r', none) ∧
      ((∃ t, encontrar_sabado_semana d = some t ∧
          lookupSemanal g.chave_semanal t = some nome ∧
          c = g.chaves_usadas) ∨
        ((∀ t, encontrar_sabado_semana d = some t →
            lookupSemanal g.chave_semanal t = none) ∧
          nome ∈ g.lista_diaconos)) := by
  cases ht : encontrar_sabado_semana d with
  | some t =>
    cases hl : lookupSemanal g.chave_semanal t with
    | some nome =>
      refine ⟨nome, g.chaves_usadas, r, ?_, .inl ⟨t, rfl, hl, rfl⟩⟩
      simp only [adicionar_escala_dia_anual, ht, hl]
    | none =>
      obtain ⟨nome, c, r', hc, hcm⟩ := obter_proximo_spec g r h
      refine ⟨nome, c, r', ?_, .inr ⟨?_, hcm⟩⟩
      · simp only [adicionar_escala_dia_anual, ht, hl, hc]
      · intro t' ht'
        cases ht'
        exact hl
  | none =>
    obtain ⟨nome, c, r', hc, hcm⟩ := obter_proximo_spec g r h
    refine ⟨nome, c, r', ?_, .inr ⟨?_, hcm⟩⟩
    · simp only [adicionar_escala_dia_anual, ht, hc]
    · intro t' ht'
      exact Option.noConfusion ht'

lemma passo_data_sab (d : Nat) (g : Gerador) (r : RandSrc) :
    passo_data (d, "sabado") g r = adicionar_escala_sabado_anual d g r := by
  simp [passo_data]

lemma passo_data_dia (d : Nat) (dia : String) (g : Gerador) (r : RandSrc)
    (h : dia ≠ "sabado") :
    passo_data (d, dia) g r = adicionar_escala_dia_anual dia d g r := by
  simp [passo_data, h]

/-! ## The processing loop: totality and projected structure -/

/-- With a non-empty roster, the annual processing loop never raises,
keeps the roster, and appends per (date, kind) pair exactly the
projected block `formatoData` (3 records for a Saturday, 1 otherwise),
in processing order. -/
lemma processar_datas_proj (L : List (Nat × String)) : ∀ (g : Gerador)
    (r : RandSrc), g.lista_diaconos ≠ [] →
    (processar_datas L g r).2.2 = none ∧
    (processar_datas L g r).1.lista_diaconos = g.lista_diaconos ∧
    (processar_datas L g r).1.escala_gerada.map projEscala =
      g.escala_gerada.map projEscala ++ L.flatMap formatoData := by
  induction L with
  | nil =>
    intro g r hg
    exact ⟨rfl, rfl, by simp [processar_datas]⟩
  | cons p rest ih =>
    intro g r hg
    obtain ⟨d, dia⟩ := p
    by_cases hdia : dia = "sabado"
    · subst hdia
      obtain ⟨chave, o1, o2, c, r', hstep, _, _, _⟩ :=
        adicionar_escala_sabado_anual_spec d g r hg
      have hpasso := (passo_data_sab d g r).trans hstep
      obtain ⟨ih1, ih2, ih3⟩ := ih
        { g with
          chaves_usadas := c,
          chave_semanal := g.chave_semanal ++ [(d, chave)],
          escala_gerada := g.escala_gerada ++
            [⟨chave, "chave", "sabado", some d⟩,
             ⟨o1, "oferta", "sabado", some d⟩,
             ⟨o2, "oferta", "sabado", some d⟩] } r' hg
      simp only [processar_datas, hpasso]
      refine ⟨ih1, ih2, ?_⟩
      rw [ih3]
      simp [formatoData, projEscala]
    · obtain ⟨nome, c, r', hstep, _⟩ :=
        adicionar_escala_dia_anual_spec dia d g r hg
      have hpasso := (passo_data_dia d dia g r hdia).trans hstep
      obtain ⟨ih1, ih2, ih3⟩ := ih
        { g with
          chaves_usadas := c,
          escala_gerada := g.escala_gerada ++
            [⟨nome, "chave", dia, some d⟩] } r' hg
      simp only [processar_datas, hpasso]
      refine ⟨ih1, ih2, ?_⟩
      rw [ih3]
      simp [formatoData, projEscala, hdia]

/-- With a non-empty roster, `gerar_escala_anual` never raises, keeps
the roster, and its schedule projects (role, kind, date)-wise to the
concatenation of the per-date blocks of the sorted annual date list. -/
lemma gerar_escala_anual_proj (ano : Nat) (g : Gerador) (r : RandSrc)
    (hg : g.lista_diaconos ≠ []) :
    (gerar_escala_anual ano g r).2.2 = none ∧
    (gerar_escala_anual ano g r).1.lista_diaconos = g.lista_diaconos ∧
    (gerar_escala_anual ano g r).1.escala_gerada.map projEscala =
      (todas_datas_ano ano).flatMap formatoData := by
  unfold gerar_escala_anual
  obtain ⟨h1, h2, h3⟩ := processar_datas_proj (todas_datas_ano ano)
    { g with escala_gerada := [], chaves_usadas := [], chave_semanal := [] }
    r hg
  exact ⟨h1, h2, by simpa using h3⟩

/-! ## Per-date counting (claim C3) -/

lemma countP_flatMap_eq_sum {α β : Type} (p : β → Bool) (f : α → List β)
    (l : List α) :
    List.countP p (l.flatMap f) =
      (l.map (fun a => List.countP p (f a))).sum := by
  induction l with
  | nil => simp
  | cons a l ih => simp [List.flatMap_cons, List.countP_append, ih]

lemma sum_map_ite (l : List Nat) (s c : Nat) :
    (l.map (fun d => if d = s then c else 0)).sum = c * l.count s := by
  induction l with
  | nil => simp
  | cons d l ih =>
    rw [List.map_cons, List.sum_cons, ih, List.count_cons]
    by_cases hd : d = s
    · rw [if_pos hd, if_pos (beq_iff_eq.mpr hd), Nat.mul_succ]
      omega
    · rw [if_neg hd, if_neg (by simpa using hd), Nat.add_zero]
      omega

lemma formatoData_dom (d : Nat) :
    formatoData (d, "domingo") = [("chave", "domingo", some d)] := by
  simp [formatoData]

lemma formatoData_qua (d : Nat) :
    formatoData (d, "quarta") = [("chave", "quarta", some d)] := by
  simp [formatoData]

lemma formatoData_sab (d : Nat) :
    formatoData (d, "sabado") =
      [("chave", "sabado", some d), ("oferta", "sabado", some d),
       ("oferta", "sabado", some d)] := by
  simp [formatoData]

/-- Schedule counts reduce to counts over the per-date blocks of the
unsorted annual date list. -/
lemma countP_escala_anual (ano : Nat) (g : Gerador) (r : RandSrc)
    (hg : g.lista_diaconos ≠ [])
    (q : String × String × Option Nat → Bool) :
    List.countP (fun e => q (projEscala e))
      (gerar_escala_anual ano g r).1.escala_gerada =
    List.countP (fun d => q ("chave", "domingo", some d))
        (calcular_datas_ano ano).domingo +
      List.countP (fun d => q ("chave", "quarta", some d))
        (calcular_datas_ano ano).quarta +
      ((calcular_datas_ano ano).sabado.map (fun d =>
        List.countP q [("chave", "sabado", some d), ("oferta", "sabado", some d),
          ("oferta", "sabado", some d)])).sum := by
  obtain ⟨h1, h2, h3⟩ := gerar_escala_anual_proj ano g r hg
  have hm : List.countP (fun e => q (projEscala e))
      (gerar_escala_anual ano g r).1.escala_gerada =
      List.countP q ((gerar_escala_anual ano g r).1.escala_gerada.map
        projEscala) := (List.countP_map q projEscala _).symm
  rw [hm, h3, ((todas_perm ano).flatMap_right formatoData).countP_eq q]
  unfold base_datas
  rw [List.flatMap_append, List.flatMap_append, List.countP_append,
    List.countP_append, List.flatMap_map, List.flatMap_map, List.flatMap_map]
  congr 1
  · congr 1
    · have : (fun d : Nat => formatoData (d, "domingo")) =
          (fun d : Nat => [(("chave", "domingo", some d) :
            String × String × Option Nat)]) := by
        funext d
        exact formatoData_dom d
      rw [this, ← List.map_eq_bind, List.countP_map]
      rfl
    · have : (fun d : Nat => formatoData (d, "quarta")) =
          (fun d : Nat => [(("chave", "quarta", some d) :
            String × String × Option Nat)]) := by
        funext d
        exact formatoData_qua d
      rw [this, ← List.map_eq_bind, List.countP_map]
      rfl
  · have : (fun d : Nat => formatoData (d, "sabado")) =
        (fun d : Nat => [(("chave", "sabado", some d) :
          String × String × Option Nat), ("oferta", "sabado", some d),
          ("oferta", "sabado", some d)]) := by
      funext d
      exact formatoData_sab d
    rw [this, countP_flatMap_eq_sum]

lemma count_filter_range_of_wd (ano s w : Nat) (h1 : jan1 ano ≤ s)
    (h2 : s ≤ dec31 ano) (hw : weekday s = w) :
    ((List.range' (jan1 ano) (diasNoAno ano)).filter
      (fun d => decide (weekday d = w))).count s = 1 := by
  refine List.count_eq_one_of_mem
    ((List.nodup_range' _ _).filter _) ?_
  exact List.mem_filter.mpr ⟨(mem_range_ano ano s).mpr ⟨h1, h2⟩, by simp [hw]⟩

lemma count_filter_range_of_ne_wd (ano s w : Nat) (hw : weekday s ≠ w) :
    ((List.range' (jan1 ano) (diasNoAno ano)).filter
      (fun d => decide (weekday d = w))).count s = 0 := by
  rw [List.count_eq_zero]
  intro hmem
  exact hw (by simpa using (List.mem_filter.mp hmem).2)

lemma countP_data_anual (ano : Nat) (g : Gerador) (r : RandSrc)
    (hg : g.lista_diaconos ≠ []) (s : Nat) :
    List.countP (fun e => e.data == some s)
      (gerar_escala_anual ano g r).1.escala_gerada =
      (calcular_datas_ano ano).domingo.count s +
        (calcular_datas_ano ano).quarta.count s +
        3 * (calcular_datas_ano ano).sabado.count s := by
  have h := countP_escala_anual ano g r hg (fun t => t.2.2 == some s)
  refine h.trans ?_
  congr 1
  rw [← sum_map_ite ((calcular_datas_ano ano).sabado) s 3]
  have hfun : (fun d : Nat => List.countP
      (fun t : String × String × Option Nat => t.2.2 == some s)
      [("chave", "sabado", some d), ("oferta", "sabado", some d),
       ("oferta", "sabado", some d)]) =
      (fun d : Nat => if d = s then 3 else 0) := by
    funext d
    by_cases hd : d = s
    · subst hd
      simp [List.countP_cons]
    · simp [List.countP_cons, hd]
  rw [hfun]

lemma countP_chave_anual (ano : Nat) (g : Gerador) (r : RandSrc)
    (hg : g.lista_diaconos ≠ []) (s : Nat) :
    List.countP (fun e => e.funcao == "chave" && e.data == some s)
      (gerar_escala_anual ano g r).1.escala_gerada =
      (calcular_datas_ano ano).domingo.count s +
        (calcular_datas_ano ano).quarta.count s +
        (calcular_datas_ano ano).sabado.count s := by
  have h := countP_escala_anual ano g r hg
    (fun t => t.1 == "chave" && t.2.2 == some s)
  refine h.trans ?_
  congr 1
  rw [← Nat.one_mul ((calcular_datas_ano ano).sabado.count s),
    ← sum_map_ite ((calcular_datas_ano ano).sabado) s 1]
  have hfun : (fun d : Nat => List.countP
      (fun t : String × String × Option Nat =>
        t.1 == "chave" && t.2.2 == some s)
      [("chave", "sabado", some d), ("oferta", "sabado", some d),
       ("oferta", "sabado", some d)]) =
      (fun d : Nat => if d = s then 1 else 0) := by
    funext d
    by_cases hd : d = s
    · subst hd
      simp [List.countP_cons]
    · simp [List.countP_cons, hd]
  rw [hfun]

lemma countP_oferta_anual (ano : Nat) (g : Gerador) (r : RandSrc)
    (hg : g.lista_diaconos ≠ []) (s : Nat) :
    List.countP (fun e => e.funcao == "oferta" && e.data == some s)
      (gerar_escala_anual ano g r).1.escala_gerada =
      2 * (calcular_datas_ano ano).sabado.count s := by
  have h := countP_escala_anual ano g r hg
    (fun t => t.1 == "oferta" && t.2.2 == some s)
  refine h.trans ?_
  have hdom : List.countP (fun d : Nat =>
      ("chave", "domingo", (some d : Option Nat)).1 == "oferta" &&
      ("chave", "domingo", (some d : Option Nat)).2.2 == some s)
      (calcular_datas_ano ano).domingo = 0 := by
    rw [List.countP_eq_zero]
    intro a _
    simp
  have hqua : List.countP (fun d : Nat =>
      ("chave", "quarta", (some d : Option Nat)).1 == "oferta" &&
      ("chave", "quarta", (some d : Option Nat)).2.2 == some s)
      (calcular_datas_ano ano).quarta = 0 := by
    rw [List.countP_eq_zero]
    intro a _
    simp
  have hfun : (fun d : Nat => List.countP
      (fun t : String × String × Option Nat =>
        t.1 == "oferta" && t.2.2 == some s)
      [("chave", "sabado", some d), ("oferta", "sabado", some d),
       ("oferta", "sabado", some d)]) =
      (fun d : Nat => if d = s then 2 else 0) := by
    funext d
    by_cases hd : d = s
    · subst hd
      simp [List.countP_cons]
    · simp [List.countP_cons, hd]
  rw [hdom, hqua]
  simp only [Nat.zero_add]
  rw [← sum_map_ite ((calcular_datas_ano ano).sabado) s 2, hfun]

/-- C3: for every non-empty roster, stream and year, the annual
schedule has, at every Saturday date of the year, exactly 3
assignments (1 "chave" + 2 "oferta"), at every Sunday or Wednesday
date exactly 1 assignment (a "chave"; no "oferta"), and no "oferta"
assignment anywhere carries a Sunday or Wednesday occurrence kind. -/
theorem c3_annual_counts (ano : Nat) (g : Gerador) (r : RandSrc)
    (hg : g.lista_diaconos ≠ []) :
    (∀ s, jan1 ano ≤ s → s ≤ dec31 ano → weekday s = 5 →
      List.countP (fun e => e.data == some s)
        (gerar_escala_anual ano g r).1.escala_gerada = 3 ∧
      List.countP (fun e => e.funcao == "chave" && e.data == some s)
        (gerar_escala_anual ano g r).1.escala_gerada = 1 ∧
      List.countP (fun e => e.funcao == "oferta" && e.data == some s)
        (gerar_escala_anual ano g r).1.escala_gerada = 2) ∧
    (∀ d, jan1 ano ≤ d → d ≤ dec31 ano → (weekday d = 6 ∨ weekday d = 2) →
      List.countP (fun e => e.data == some d)
        (gerar_escala_anual ano g r).1.escala_gerada = 1 ∧
      List.countP (fun e => e.funcao == "chave" && e.data == some d)
        (gerar_escala_anual ano g r).1.escala_gerada = 1 ∧
      List.countP (fun e => e.funcao == "oferta" && e.data == some d)
        (gerar_escala_anual ano g r).1.escala_gerada = 0) ∧
    (∀ e ∈ (gerar_escala_anual ano g r).1.escala_gerada,
      e.funcao = "oferta" → e.dia = "sabado") := by
  refine ⟨?_, ?_, ?_⟩
  · intro s h1 h2 hw
    have c6 : (calcular_datas_ano ano).domingo.count s = 0 := by
      rw [calcular_datas_ano_eq]
      exact count_filter_range_of_ne_wd ano s 6 (by omega)
    have c2 : (calcular_datas_ano ano).quarta.count s = 0 := by
      rw [calcular_datas_ano_eq]
      exact count_filter_range_of_ne_wd ano s 2 (by omega)
    have c5 : (calcular_datas_ano ano).sabado.count s = 1 := by
      rw [calcular_datas_ano_eq]
      exact count_filter_range_of_wd ano s 5 h1 h2 hw
    refine ⟨?_, ?_, ?_⟩
    · rw [countP_data_anual ano g r hg s, c6, c2, c5]
    · rw [countP_chave_anual ano g r hg s, c6, c2, c5]
    · rw [countP_oferta_anual ano g r hg s, c5]
  · intro d h1 h2 hw
    have c5 : (calcular_datas_ano ano).sabado.count d = 0 := by
      rw [calcular_datas_ano_eq]
      exact count_filter_range_of_ne_wd ano d 5 (by omega)
    rcases hw with hw | hw
    · have c6 : (calcular_datas_ano ano).domingo.count d = 1 := by
        rw [calcular_datas_ano_eq]
        exact count_filter_range_of_wd ano d 6 h1 h2 hw
      have c2 : (calcular_datas_ano ano).quarta.count d = 0 := by
        rw [calcular_datas_ano_eq]
        exact count_filter_range_of_ne_wd ano d 2 (by omega)
      refine ⟨?_, ?_, ?_⟩
      · rw [countP_data_anual ano g r hg d, c6, c2, c5]
      · rw [countP_chave_anual ano g r hg d, c6, c2, c5]
      · rw [countP_oferta_anual ano g r hg d, c5]
    · have c6 : (calcular_datas_ano ano).domingo.count d = 0 := by
        rw [calcular_datas_ano_eq]
        exact count_filter_range_of_ne_wd ano d 6 (by omega)
      have c2 : (calcular_datas_ano ano).quarta.count d = 1 := by
        rw [calcular_datas_ano_eq]
        exact count_filter_range_of_wd ano d 2 h1 h2 hw
      refine ⟨?_, ?_, ?_⟩
      · rw [countP_data_anual ano g r hg d, c6, c2, c5]
      · rw [countP_chave_anual ano g r hg d, c6, c2, c5]
      · rw [countP_oferta_anual ano g r hg d, c5]
  · intro e he hfun
    obtain ⟨h1, h2, h3⟩ := gerar_escala_anual_proj ano g r hg
    have hpm : projEscala e ∈
        (gerar_escala_anual ano g r).1.escala_gerada.map projEscala :=
      List.mem_map_of_mem projEscala he
    rw [h3] at hpm
    have hpm' : projEscala e ∈ (base_datas ano).flatMap formatoData :=
      ((todas_perm ano).flatMap_right formatoData).mem_iff.mp hpm
    obtain ⟨p, hp, hin⟩ := List.mem_flatMap.mp hpm'
    unfold formatoData at hin
    by_cases hsab : p.2 = "sabado"
    · rw [if_pos hsab] at hin
      simp only [List.mem_cons, List.not_mem_nil, or_false] at hin
      have hd : (projEscala e).2.1 = "sabado" := by
        rcases hin with h | h | h <;> rw [h]
      exact hd
    · rw [if_neg hsab] at hin
      simp only [List.mem_cons, List.not_mem_nil, or_false] at hin
      exfalso
      have hc : (projEscala e).1 = "chave" := by rw [hin]
      simp only [projEscala] at hc
      rw [hfun] at hc
      exact absurd hc (by decide)

/-- Witness for C3 at a concrete roster, year, Saturday (January 3,
2026 = ordinal 739619) and Sunday (January 4, 2026 = ordinal 739620). -/
theorem c3_annual_counts_witness :
    List.countP (fun e => e.data == some 739619)
      (gerar_escala_anual 2026 ⟨["A"], [], [], []⟩ []).1.escala_gerada = 3 ∧
    List.countP (fun e => e.data == some 739620)
      (gerar_escala_anual 2026 ⟨["A"], [], [], []⟩ []).1.escala_gerada = 1 :=
  ⟨((c3_annual_counts 2026 ⟨["A"], [], [], []⟩ [] (by decide)).1 739619
      (by decide) (by decide) (by decide)).1,
    ((c3_annual_counts 2026 ⟨["A"], [], [], []⟩ [] (by decide)).2.1 739620
      (by decide) (by decide) (Or.inl (by decide))).1⟩

/-! ## The weekly link invariant (claim C2) -/

lemma encontrar_le (d t : Nat) (h : encontrar_sabado_semana d = some t) :
    t ≤ d := by
  unfold encontrar_sabado_semana at h
  by_cases h6 : weekday d = 6
  · rw [if_pos h6] at h
    cases h
    omega
  · rw [if_neg h6] at h
    by_cases h2 : weekday d = 2
    · rw [if_pos h2] at h
      cases h
      omega
    · rw [if_neg h2] at h
      cases h

/-- Invariant carried through the annual processing loop: every
"chave" Saturday record is registered in the weekly-link map under its
date, and every non-Saturday "chave" record agrees with whatever the
link map holds for its week's Saturday.  The two bound hypotheses say
the state only mentions dates strictly before the remaining work. -/
lemma processar_datas_link (L : List (Nat × String)) : ∀ (g : Gerador)
    (r : RandSrc), g.lista_diaconos ≠ [] →
    L.Pairwise (fun p q => p.1 < q.1) →
    (∀ e ∈ g.escala_gerada, e.funcao = "chave" → e.dia = "sabado" →
      ∀ s, e.data = some s →
        lookupSemanal g.chave_semanal s = some e.nome) →
    (∀ e ∈ g.escala_gerada, e.funcao = "chave" → e.dia ≠ "sabado" →
      ∀ d t n, e.data = some d → encontrar_sabado_semana d = some t →
        lookupSemanal g.chave_semanal t = some n → e.nome = n) →
    (∀ k v, (k, v) ∈ g.chave_semanal → ∀ p ∈ L, k < p.1) →
    (∀ e ∈ g.escala_gerada, ∀ d, e.data = some d → ∀ p ∈ L, d < p.1) →
    ((∀ e ∈ (processar_datas L g r).1.escala_gerada,
        e.funcao = "chave" → e.dia = "sabado" → ∀ s, e.data = some s →
          lookupSemanal (processar_datas L g r).1.chave_semanal s =
            some e.nome) ∧
     (∀ e ∈ (processar_datas L g r).1.escala_gerada,
        e.funcao = "chave" → e.dia ≠ "sabado" →
        ∀ d t n, e.data = some d → encontrar_sabado_semana d = some t →
          lookupSemanal (processar_datas L g r).1.chave_semanal t = some n →
          e.nome = n)) := by
  induction L with
  | nil =>
    intro g r hg hpw hA hB hkeys hbound
    exact ⟨hA, hB⟩
  | cons p rest ih =>
    intro g r hg hpw hA hB hkeys hbound
    obtain ⟨d0, dia0⟩ := p
    have hpw' := List.pairwise_cons.mp hpw
    by_cases hdia : dia0 = "sabado"
    · subst hdia
      obtain ⟨chave, o1, o2, c, r', hstep, _, _, _⟩ :=
        adicionar_escala_sabado_anual_spec d0 g r hg
      have hpasso := (passo_data_sab d0 g r).trans hstep
      simp only [processar_datas, hpasso]
      refine ih _ r' hg hpw'.2 ?_ ?_ ?_ ?_
      · -- invariant A for the new state
        intro e he hf hdsab s hdat
        simp only [List.mem_append, List.mem_cons, List.not_mem_nil,
          or_false] at he
        rcases he with he | he | he | he
        · exact lookupSemanal_append_some _ _ _ _ (hA e he hf hdsab s hdat)
        · subst he
          simp only at hdat ⊢
          cases hdat
          refine lookupSemanal_append_self _ _ _ ?_
          refine lookupSemanal_eq_none _ _ ?_
          intro k v hkv
          exact Nat.ne_of_lt (hkeys k v hkv (d0, "sabado") (by simp))
        · subst he
          simp at hf
        · subst he
          simp at hf
      · -- invariant B for the new state
        intro e he hf hdsab d t n hdat henc hlook
        simp only [List.mem_append, List.mem_cons, List.not_mem_nil,
          or_false] at he
        rcases he with he | he | he | he
        · rcases lookupSemanal_append_elim _ _ _ _ hlook with hl | ⟨_, hkd, _⟩
          · exact hB e he hf hdsab d t n hdat henc hl
          · exfalso
            have hdd : d < d0 := hbound e he d hdat (d0, "sabado") (by simp)
            have htd : t ≤ d := encontrar_le d t henc
            simp only at hkd
            omega
        · subst he
          exact absurd rfl hdsab
        · subst he
          simp at hf
        · subst he
          simp at hf
      · -- key bounds for the new state
        intro k v hkv q hq
        simp only [List.mem_append, List.mem_cons, List.not_mem_nil,
          or_false] at hkv
        rcases hkv with hkv | hkv
        · exact hkeys k v hkv q (List.mem_cons_of_mem _ hq)
        · cases hkv
          exact hpw'.1 q hq
      · -- date bounds for the new state
        intro e he d hdat q hq
        simp only [List.mem_append, List.mem_cons, List.not_mem_nil,
          or_false] at he
        rcases he with he | he | he | he
        · exact hbound e he d hdat q (List.mem_cons_of_mem _ hq)
        · subst he
          simp only at hdat
          cases hdat
          exact hpw'.1 q hq
        · subst he
          simp only at hdat
          cases hdat
          exact hpw'.1 q hq
        · subst he
          simp only at hdat
          cases hdat
          exact hpw'.1 q hq
    · obtain ⟨nome, c, r', hstep, hside⟩ :=
        adicionar_escala_dia_anual_spec dia0 d0 g r hg
      have hpasso := (passo_data_dia d0 dia0 g r hdia).trans hstep
      simp only [processar_datas, hpasso]
      refine ih _ r' hg hpw'.2 ?_ ?_ ?_ ?_
      · intro e he hf hdsab s hdat
        simp only [List.mem_append, List.mem_cons, List.not_mem_nil,
          or_false] at he
        rcases he with he | he
        · exact hA e he hf hdsab s hdat
        · subst he
          exact absurd hdsab hdia
      · intro e he hf hdsab d t n hdat henc hlook
        simp only [List.mem_append, List.mem_cons, List.not_mem_nil,
          or_false] at he
        rcases he with he | he
        · exact hB e he hf hdsab d t n hdat henc hlook
        · subst he
          simp only at hdat
          cases hdat
          rcases hside with ⟨t', henc', hlook', _⟩ | ⟨hmiss, _⟩
          · rw [henc] at henc'
            cases henc'
            rw [hlook] at hlook'
            cases hlook'
            rfl
          · exfalso
            rw [hmiss t henc] at hlook
            cases hlook
      · intro k v hkv q hq
        exact hkeys k v hkv q (List.mem_cons_of_mem _ hq)
      · intro e he d hdat q hq
        simp only [List.mem_append, List.mem_cons, List.not_mem_nil,
          or_false] at he
        rcases he with he | he
        · exact hbound e he d hdat q (List.mem_cons_of_mem _ hq)
        · subst he
          simp only at hdat
          cases hdat
          exact hpw'.1 q hq

/-- C2: in the annual schedule, the primary ("chave") volunteer of a
Sunday and of a Wednesday equals the primary volunteer of the Saturday
of the same service week (1 day before the Sunday, 4 days before the
Wednesday), whenever that Saturday lies within the year. -/
theorem c2_weekly_link (ano : Nat) (g : Gerador) (r : RandSrc) (s : Nat)
    (hg : g.lista_diaconos ≠ []) (hs : weekday s = 5)
    (h1 : jan1 ano ≤ s) (h2 : s + 4 ≤ dec31 ano)
    (mdom mqua msab : String)
    (hdom : (⟨mdom, "chave", "domingo", some (s + 1)⟩ : DiaconoEscala) ∈
      (gerar_escala_anual ano g r).1.escala_gerada)
    (hqua : (⟨mqua, "chave", "quarta", some (s + 4)⟩ : DiaconoEscala) ∈
      (gerar_escala_anual ano g r).1.escala_gerada)
    (hsab : (⟨msab, "chave", "sabado", some s⟩ : DiaconoEscala) ∈
      (gerar_escala_anual ano g r).1.escala_gerada) :
    mdom = msab ∧ mqua = msab := by
  have hlink := processar_datas_link (todas_datas_ano ano)
    { g with escala_gerada := [], chaves_usadas := [], chave_semanal := [] }
    r hg (todas_pairwise ano)
    (by intro e he; cases he) (by intro e he; cases he)
    (by intro k v hkv; cases hkv) (by intro e he; cases he)
  obtain ⟨hAf, hBf⟩ := hlink
  have hlooks : lookupSemanal
      (processar_datas (todas_datas_ano ano)
        { g with
          escala_gerada := [],
          chaves_usadas := [],
          chave_semanal := [] } r).1.chave_semanal s = some msab :=
    hAf _ hsab rfl rfl s rfl
  have h6 : weekday (s + 1) = 6 := by
    unfold weekday at hs ⊢
    omega
  have henc6 : encontrar_sabado_semana (s + 1) = some s := by
    unfold encontrar_sabado_semana
    rw [if_pos h6]
    simp
  have h2w : weekday (s + 4) = 2 := by
    unfold weekday at hs ⊢
    omega
  have henc2 : encontrar_sabado_semana (s + 4) = some s := by
    unfold encontrar_sabado_semana
    rw [if_neg (by omega : ¬ weekday (s + 4) = 6), if_pos h2w]
    simp
  constructor
  · exact hBf _ hdom rfl (by simp) (s + 1) s msab rfl henc6 hlooks
  · exact hBf _ hqua rfl (by simp) (s + 4) s msab rfl henc2 hlooks

set_option maxRecDepth 100000 in
/-- Witness for C2 at a concrete run: roster ["A"], year 2026, the
week of Saturday January 3, 2026 (ordinal 739619; Sunday 739620,
Wednesday 739623). -/
theorem c2_weekly_link_witness : ("A" : String) = "A" ∧ ("A" : String) = "A" :=
  c2_weekly_link 2026 ⟨["A"], [], [], []⟩ [] 739619 (by decide) (by decide)
    (by decide) (by decide) "A" "A" "A" (by decide) (by decide) (by decide)

/-! ## Grouping queries (claim C10) -/

lemma agrupar_por_dia_eq (l : List DiaconoEscala) : ∀ acc : EscalaPorDia,
    (∀ e ∈ l, e.dia = "domingo" ∨ e.dia = "quarta" ∨ e.dia = "sabado") →
    agrupar_por_dia l acc = some
      ⟨acc.domingo ++ l.filter (fun e => e.dia == "domingo"),
       acc.quarta ++ l.filter (fun e => e.dia == "quarta"),
       acc.sabado ++ l.filter (fun e => e.dia == "sabado")⟩ := by
  induction l with
  | nil =>
    intro acc h
    simp [agrupar_por_dia]
  | cons e l ih =>
    intro acc h
    have hrest : ∀ x ∈ l, x.dia = "domingo" ∨ x.dia = "quarta" ∨
        x.dia = "sabado" := fun x hx => h x (List.mem_cons_of_mem _ hx)
    rcases h e (by simp) with hd | hd | hd
    · have hstep : agrupar_por_dia (e :: l) acc =
          agrupar_por_dia l { acc with domingo := acc.domingo ++ [e] } := by
        simp [agrupar_por_dia, hd]
      rw [hstep, ih _ hrest]
      simp [List.filter_cons, hd]
    · have hstep : agrupar_por_dia (e :: l) acc =
          agrupar_por_dia l { acc with quarta := acc.quarta ++ [e] } := by
        simp [agrupar_por_dia, hd]
      rw [hstep, ih _ hrest]
      simp [List.filter_cons, hd]
    · have hstep : agrupar_por_dia (e :: l) acc =
          agrupar_por_dia l { acc with sabado := acc.sabado ++ [e] } := by
        simp [agrupar_por_dia, hd]
      rw [hstep, ih _ hrest]
      simp [List.filter_cons, hd]

lemma agrupar_por_funcao_eq (l : List DiaconoEscala) :
    ∀ acc : EscalaPorFuncao,
    (∀ e ∈ l, e.funcao = "chave" ∨ e.funcao = "oferta") →
    agrupar_por_funcao l acc = some
      ⟨acc.chave ++ l.filter (fun e => e.funcao == "chave"),
       acc.oferta ++ l.filter (fun e => e.funcao == "oferta")⟩ := by
  induction l with
  | nil =>
    intro acc h
    simp [agrupar_por_funcao]
  | cons e l ih =>
    intro acc h
    have hrest : ∀ x ∈ l, x.funcao = "chave" ∨ x.funcao = "oferta" :=
      fun x hx => h x (List.mem_cons_of_mem _ hx)
    rcases h e (by simp) with hd | hd
    · have hstep : agrupar_por_funcao (e :: l) acc =
          agrupar_por_funcao l { acc with chave := acc.chave ++ [e] } := by
        simp [agrupar_por_funcao, hd]
      rw [hstep, ih _ hrest]
      simp [List.filter_cons, hd]
    · have hstep : agrupar_por_funcao (e :: l) acc =
          agrupar_por_funcao l { acc with oferta := acc.oferta ++ [e] } := by
        simp [agrupar_por_funcao, hd]
      rw [hstep, ih _ hrest]
      simp [List.filter_cons, hd]

lemma filter_dia_partition (l : List DiaconoEscala)
    (h : ∀ e ∈ l, e.dia = "domingo" ∨ e.dia = "quarta" ∨ e.dia = "sabado") :
    (l.filter (fun e => e.dia == "domingo")).length +
      (l.filter (fun e => e.dia == "quarta")).length +
      (l.filter (fun e => e.dia == "sabado")).length = l.length := by
  induction l with
  | nil => simp
  | cons e l ih =>
    have hrest := fun x hx => h x (List.mem_cons_of_mem _ hx)
    have hsum := ih hrest
    rcases h e (by simp) with hd | hd | hd <;>
      · simp only [List.filter_cons, hd]
        simp
        omega

lemma filter_funcao_partition (l : List DiaconoEscala)
    (h : ∀ e ∈ l, e.funcao = "chave" ∨ e.funcao = "oferta") :
    (l.filter (fun e => e.funcao == "chave")).length +
      (l.filter (fun e => e.funcao == "oferta")).length = l.length := by
  induction l with
  | nil => simp
  | cons e l ih =>
    have hrest := fun x hx => h x (List.mem_cons_of_mem _ hx)
    have hsum := ih hrest
    rcases h e (by simp) with hd | hd <;>
      · simp only [List.filter_cons, hd]
        simp
        omega

/-- Every record of a successful annual run carries one of the three
occurrence kinds and one of the two roles. -/
lemma escala_anual_valid (ano : Nat) (g : Gerador) (r : RandSrc)
    (hg : g.lista_diaconos ≠ []) :
    ∀ e ∈ (gerar_escala_anual ano g r).1.escala_gerada,
      (e.dia = "domingo" ∨ e.dia = "quarta" ∨ e.dia = "sabado") ∧
      (e.funcao = "chave" ∨ e.funcao = "oferta") := by
  intro e he
  obtain ⟨h1, h2, h3⟩ := gerar_escala_anual_proj ano g r hg
  have hpm := List.mem_map_of_mem projEscala he
  rw [h3] at hpm
  have hpm' := ((todas_perm ano).flatMap_right formatoData).mem_iff.mp hpm
  obtain ⟨p, hp, hin⟩ := List.mem_flatMap.mp hpm'
  have hbp := (mem_base_datas ano p).mp hp
  unfold formatoData at hin
  by_cases hsab : p.2 = "sabado"
  · rw [if_pos hsab] at hin
    simp only [List.mem_cons, List.not_mem_nil, or_false] at hin
    constructor
    · refine .inr (.inr ?_)
      rcases hin with h | h | h <;>
        exact congrArg (fun t : String × String × Option Nat => t.2.1) h
    · rcases hin with h | h | h
      · exact .inl (congrArg Prod.fst h)
      · exact .inr (congrArg Prod.fst h)
      · exact .inr (congrArg Prod.fst h)
  · rw [if_neg hsab] at hin
    simp only [List.mem_cons, List.not_mem_nil, or_false] at hin
    have hdia : e.dia = p.2 :=
      congrArg (fun t : String × String × Option Nat => t.2.1) hin
    constructor
    · rcases hbp.2.2 with ⟨hq, _⟩ | ⟨hq, _⟩ | ⟨hq, _⟩
      · exact .inl (hdia.trans hq)
      · exact .inr (.inl (hdia.trans hq))
      · exact absurd hq hsab
    · exact .inl (congrArg Prod.fst hin)

/-- C10: every assignment produced by a (successful) run of either
generation mode has occurrence kind in domingo/quarta/sabado and role
in chave/oferta; consequently `obter_escala_por_dia` and
`obter_escala_por_funcao` succeed on the generated schedule (no
missing-key error) and return exactly the filter-partition of the
schedule: the groups are the sublists with the matching field, and
their sizes add up to the whole schedule. -/
theorem c10_groupings (ano : Nat) (g : Gerador) (r rw : RandSrc)
    (ev : Bool) (hg : g.lista_diaconos ≠ []) :
    ((∀ e ∈ (gerar_escala_anual ano g r).1.escala_gerada,
        (e.dia = "domingo" ∨ e.dia = "quarta" ∨ e.dia = "sabado") ∧
        (e.funcao = "chave" ∨ e.funcao = "oferta")) ∧
      obter_escala_por_dia (gerar_escala_anual ano g r).1 = some
        ⟨(gerar_escala_anual ano g r).1.escala_gerada.filter
            (fun e => e.dia == "domingo"),
         (gerar_escala_anual ano g r).1.escala_gerada.filter
            (fun e => e.dia == "quarta"),
         (gerar_escala_anual ano g r).1.escala_gerada.filter
            (fun e => e.dia == "sabado")⟩ ∧
      obter_escala_por_funcao (gerar_escala_anual ano g r).1 = some
        ⟨(gerar_escala_anual ano g r).1.escala_gerada.filter
            (fun e => e.funcao == "chave"),
         (gerar_escala_anual ano g r).1.escala_gerada.filter
            (fun e => e.funcao == "oferta")⟩ ∧
      ((gerar_escala_anual ano g r).1.escala_gerada.filter
          (fun e => e.dia == "domingo")).length +
        ((gerar_escala_anual ano g r).1.escala_gerada.filter
          (fun e => e.dia == "quarta")).length +
        ((gerar_escala_anual ano g r).1.escala_gerada.filter
          (fun e => e.dia == "sabado")).length =
        (gerar_escala_anual ano g r).1.escala_gerada.length ∧
      ((gerar_escala_anual ano g r).1.escala_gerada.filter
          (fun e => e.funcao == "chave")).length +
        ((gerar_escala_anual ano g r).1.escala_gerada.filter
          (fun e => e.funcao == "oferta")).length =
        (gerar_escala_anual ano g r).1.escala_gerada.length) ∧
    ((gerar_escala_semanal ev g rw).2.2 = none →
      (∀ e ∈ (gerar_escala_semanal ev g rw).1.escala_gerada,
        (e.dia = "domingo" ∨ e.dia = "quarta" ∨ e.dia = "sabado") ∧
        (e.funcao = "chave" ∨ e.funcao = "oferta")) ∧
      obter_escala_por_dia (gerar_escala_semanal ev g rw).1 = some
        ⟨(gerar_escala_semanal ev g rw).1.escala_gerada.filter
            (fun e => e.dia == "domingo"),
         (gerar_escala_semanal ev g rw).1.escala_gerada.filter
            (fun e => e.dia == "quarta"),
         (gerar_escala_semanal ev g rw).1.escala_gerada.filter
            (fun e => e.dia == "sabado")⟩ ∧
      obter_escala_por_funcao (gerar_escala_semanal ev g rw).1 = some
        ⟨(gerar_escala_semanal ev g rw).1.escala_gerada.filter
            (fun e => e.funcao == "chave"),
         (gerar_escala_semanal ev g rw).1.escala_gerada.filter
            (fun e => e.funcao == "oferta")⟩) := by
  have hval := escala_anual_valid ano g r hg
  have hvd : ∀ e ∈ (gerar_escala_anual ano g r).1.escala_gerada,
      e.dia = "domingo" ∨ e.dia = "quarta" ∨ e.dia = "sabado" :=
    fun e he => (hval e he).1
  have hvf : ∀ e ∈ (gerar_escala_anual ano g r).1.escala_gerada,
      e.funcao = "chave" ∨ e.funcao = "oferta" :=
    fun e he => (hval e he).2
  refine ⟨⟨hval, ?_, ?_, filter_dia_partition _ hvd,
    filter_funcao_partition _ hvf⟩, ?_⟩
  · unfold obter_escala_por_dia
    rw [agrupar_por_dia_eq _ _ hvd]
    simp
  · unfold obter_escala_por_funcao
    rw [agrupar_por_funcao_eq _ _ hvf]
    simp
  · intro hok
    obtain ⟨n1, n2, n3, n4, n5, n6, n7, hesc⟩ :=
      (gerar_escala_semanal_spec ev g rw).2 hok
    have hvdw : ∀ e ∈ (gerar_escala_semanal ev g rw).1.escala_gerada,
        e.dia = "domingo" ∨ e.dia = "quarta" ∨ e.dia = "sabado" := by
      rw [hesc]
      intro e he
      simp only [List.mem_cons, List.not_mem_nil, or_false] at he
      rcases he with h | h | h | h | h | h | h <;>
        · subst h
          simp
    have hvfw : ∀ e ∈ (gerar_escala_semanal ev g rw).1.escala_gerada,
        e.funcao = "chave" ∨ e.funcao = "oferta" := by
      rw [hesc]
      intro e he
      simp only [List.mem_cons, List.not_mem_nil, or_false] at he
      rcases he with h | h | h | h | h | h | h <;>
        · subst h
          simp
    refine ⟨fun e he => ⟨hvdw e he, hvfw e he⟩, ?_, ?_⟩
    · unfold obter_escala_por_dia
      rw [agrupar_por_dia_eq _ _ hvdw]
      simp
    · unfold obter_escala_por_funcao
      rw [agrupar_por_funcao_eq _ _ hvfw]
      simp

/-- Witness for C10 at a concrete roster, stream, year and legacy
flag (avoidRepeat off, so the legacy run succeeds on a 1-name
roster). -/
theorem c10_groupings_witness :
    (gerar_escala_semanal false ⟨["A"], [], [], []⟩ []).2.2 = none ∧
    obter_escala_por_dia (gerar_escala_semanal false ⟨["A"], [], [], []⟩ []).1
      = some
      ⟨(gerar_escala_semanal false ⟨["A"], [], [], []⟩
          []).1.escala_gerada.filter (fun e => e.dia == "domingo"),
       (gerar_escala_semanal false ⟨["A"], [], [], []⟩
          []).1.escala_gerada.filter (fun e => e.dia == "quarta"),
       (gerar_escala_semanal false ⟨["A"], [], [], []⟩
          []).1.escala_gerada.filter (fun e => e.dia == "sabado")⟩ :=
  ⟨by decide,
    ((c10_groupings 2026 ⟨["A"], [], [], []⟩ [] [] false
      (by decide)).2 (by decide)).2.1⟩

end GeradorEscala
